import Mathlib

/-!
# Wideband spectrum sweep (`wideband_spectrum_sweep.cpp`)

A shallow embedding of the producer side of the BladeRF wideband spectrum
sweeper: the shared `WidebandState`, its constructor, the waterfall history,
the transform `process_fft`, the stitch loop that maps one step's averaged
spectrum line into the mosaic, and the sweep loop that drives the receiver.

Modelling conventions
* The preprocessor constants (`FFT_SIZE`, `SAMPLE_RATE`, ...) are the fields of
  a `Config`; `configured` holds the values written in the source.
* `uint64_t` / `size_t` arithmetic is arithmetic on `Nat` reduced modulo `2^64`
  (`wrap64`); a conversion to `int64_t` is `toInt64`.
* `float` and `double` values are exact rationals (`ℚ`): rounding is idealised,
  the control flow and the index arithmetic are kept as written.
* `std::vector` and `std::deque` are `List`s; the back of the deque is the end
  of the list.
* The library routines `fftw_execute` and `log10f` are the fields of a
  `Numerics`; the window of the shared state is an argument of `process_fft`.
-/

namespace BladeRF

/-- The `#define` constants at the top of the source file. -/
structure Config where
  FFT_SIZE : Nat
  SAMPLE_RATE : Nat
  START_FREQ_MHZ : Nat
  END_FREQ_MHZ : Nat
  STEP_SIZE_MHZ : Nat
  WATERFALL_HISTORY : Nat
deriving Repr

/-- The values the source file defines: `FFT_SIZE 8192`, `SAMPLE_RATE 61440000`,
`START_FREQ_MHZ 80`, `END_FREQ_MHZ 110`, `STEP_SIZE_MHZ 50`,
`WATERFALL_HISTORY 20`. -/
def configured : Config :=
  ⟨8192, 61440000, 80, 110, 50, 20⟩

/-- Reduction of a natural number to the range of `uint64_t` / `size_t`. -/
def wrap64 (n : Nat) : Nat := n % 18446744073709551616

/-- Unsigned 64-bit subtraction `a - b` of two values in range. -/
def sub64 (a b : Nat) : Nat := wrap64 (a + 18446744073709551616 - wrap64 b)

/-- The conversion `(int64_t)n` of an unsigned 64-bit value (two's complement). -/
def toInt64 (n : Nat) : Int :=
  if wrap64 n < 9223372036854775808 then (wrap64 n : Int)
  else (wrap64 n : Int) - 18446744073709551616

/-- Conversion of a `double` to an integer type: truncation toward zero. -/
def truncate (q : ℚ) : Int := if 0 ≤ q then ⌊q⌋ else ⌈q⌉

/-- The fields of `struct WidebandState` that hold data (the mutex and the FFT
plan, buffers and window are left out). -/
structure WidebandState where
  running : Bool
  full_spectrum : List ℚ
  peak_spectrum : List ℚ
  avg_spectrum_acc : List ℚ
  waterfall_history : List (List ℚ)
  start_freq : Nat
  end_freq : Nat
  current_freq : Nat
  num_chunks : Int
  sweep_count : Nat
  avg_alpha : ℚ
  peak_hold_enabled : Bool
  db_min : ℚ
  db_max : ℚ
  adjust_mode : Bool

/-- The number of mosaic cells the constructor allocates:
`(extended_bandwidth / (SAMPLE_RATE / FFT_SIZE)) + FFT_SIZE`. -/
def total_bins (cfg : Config) (start_freq end_freq : Nat) : Nat :=
  let total_bandwidth := sub64 end_freq start_freq
  let extended_bandwidth := wrap64 (total_bandwidth + cfg.SAMPLE_RATE)
  wrap64 (extended_bandwidth / (cfg.SAMPLE_RATE / cfg.FFT_SIZE) + cfg.FFT_SIZE)

/-- The constructor `WidebandState::WidebandState()`. -/
def WidebandState.init (cfg : Config) : WidebandState :=
  let start_freq := wrap64 (cfg.START_FREQ_MHZ * 1000000)
  let end_freq := wrap64 (cfg.END_FREQ_MHZ * 1000000)
  let n := total_bins cfg start_freq end_freq
  { running := true
    full_spectrum := List.replicate n (-80)
    peak_spectrum := List.replicate n (-120)
    avg_spectrum_acc := List.replicate n (-80)
    waterfall_history := []
    start_freq := start_freq
    end_freq := end_freq
    current_freq := start_freq
    num_chunks := 1
    sweep_count := 0
    avg_alpha := 3 / 10
    peak_hold_enabled := false
    db_min := -80
    db_max := -10
    adjust_mode := false }

/-- The method `WidebandState::add_waterfall_line`: `push_back` the mosaic, then
`pop_front` when the deque holds more than `WATERFALL_HISTORY` lines. -/
def WidebandState.add_waterfall_line (cfg : Config) (s : WidebandState) : WidebandState :=
  let pushed := s.waterfall_history ++ [s.full_spectrum]
  { s with
    waterfall_history :=
      if pushed.length > cfg.WATERFALL_HISTORY then pushed.tail else pushed }

/-- The local `hz_per_bin = (double)SAMPLE_RATE / (double)FFT_SIZE`. -/
def hz_per_bin (cfg : Config) : ℚ := (cfg.SAMPLE_RATE : ℚ) / (cfg.FFT_SIZE : ℚ)

/-- The local `extended_range = total_range + SAMPLE_RATE`, with
`total_range = end_freq - start_freq` (unsigned 64-bit). -/
def extended_range (cfg : Config) (s : WidebandState) : Nat :=
  wrap64 (sub64 s.end_freq s.start_freq + cfg.SAMPLE_RATE)

/-- The local `array_start_freq = start_freq - SAMPLE_RATE/2` (unsigned 64-bit). -/
def array_start_freq (cfg : Config) (s : WidebandState) : Nat :=
  sub64 s.start_freq (cfg.SAMPLE_RATE / 2)

/-- The local `base_index` of a step tuned to `freq`:
`(size_t)((double)freq_offset / (double)extended_range * (double)total_bins)` with
`freq_offset = (int64_t)freq - (int64_t)array_start_freq`. The conversion to
`size_t` is only defined for a value above -1; `Int.toNat` yields 0 below. -/
def base_index (cfg : Config) (s : WidebandState) (freq : Nat) : Nat :=
  let total_bins := s.full_spectrum.length
  let freq_offset : Int := toInt64 freq - toInt64 (array_start_freq cfg s)
  (truncate ((freq_offset : ℚ) / (extended_range cfg s : ℚ) * (total_bins : ℚ))).toNat

/-- The local `bins_per_mhz = (double)total_bins / (double)(extended_range / 1000000)`;
the inner division is the integer division of the source. -/
def bins_per_mhz (cfg : Config) (s : WidebandState) : ℚ :=
  (s.full_spectrum.length : ℚ) / ((extended_range cfg s / 1000000 : Nat) : ℚ)

/-- The local `use_range = (STEP_SIZE_MHZ * 1000000ULL) / 2`. -/
def use_range (cfg : Config) : Nat := wrap64 (cfg.STEP_SIZE_MHZ * 1000000) / 2

/-- The local `freq_offset_hz = (i - FFT_SIZE / 2.0) * hz_per_bin` of bin `i`. -/
def freq_offset_hz (cfg : Config) (i : Nat) : ℚ :=
  ((i : ℚ) - (cfg.FFT_SIZE : ℚ) / 2) * hz_per_bin cfg

/-- The local `global_index = base_index + (int64_t)(freq_offset_mhz * bins_per_mhz)`:
the sum is formed in `size_t` and converted to `int64_t`. -/
def global_index (cfg : Config) (base_index : Nat) (bins_per_mhz : ℚ) (i : Nat) : Int :=
  let freq_offset_mhz := freq_offset_hz cfg i / 1000000
  toInt64 (((base_index : Int) + truncate (freq_offset_mhz * bins_per_mhz))
            % 18446744073709551616).toNat

/-- One iteration of the stitch loop (the body of `for (size_t i = 0; ...)`), for
bin `i` of the averaged line `avg_spectrum`. The counters that only feed the
diagnostic `printf` are left out; a vector's size always fits `int64_t`, so
`(int64_t)total_bins` is `total_bins`. -/
def stitch_bin (cfg : Config) (base_index : Nat) (bins_per_mhz : ℚ) (total_bins : Nat)
    (avg_spectrum : List ℚ) (s : WidebandState) (i : Nat) : WidebandState :=
  if |freq_offset_hz cfg i| > (use_range cfg : ℚ) then s
  else
    let global_index := global_index cfg base_index bins_per_mhz i
    if 0 ≤ global_index ∧ global_index < (total_bins : Int) then
      let new_value := avg_spectrum.getD i 0
      let s1 : WidebandState :=
        { s with
          avg_spectrum_acc := s.avg_spectrum_acc.set global_index.toNat new_value
          full_spectrum := s.full_spectrum.set global_index.toNat new_value }
      if s1.peak_hold_enabled then
        if new_value > s1.peak_spectrum.getD global_index.toNat 0 then
          { s1 with peak_spectrum := s1.peak_spectrum.set global_index.toNat new_value }
        else
          { s1 with
            peak_spectrum :=
              s1.peak_spectrum.set global_index.toNat
                (s1.peak_spectrum.getD global_index.toNat 0 - 0.05) }
      else s1
    else s

/-- The stitch of one step: the locals computed before the loop and the loop
over the bins of the averaged line. -/
def stitch (cfg : Config) (s : WidebandState) (freq : Nat) (avg_spectrum : List ℚ) :
    WidebandState :=
  let total_bins := s.full_spectrum.length
  (List.range avg_spectrum.length).foldl
    (stitch_bin cfg (base_index cfg s freq) (bins_per_mhz cfg s) total_bins avg_spectrum) s

/-- Whether bin `i` passes the guard `fabs(freq_offset_hz) > use_range` of the
stitch loop, that is, is not skipped by its `continue`. -/
def use_bin (cfg : Config) (i : Nat) : Prop :=
  ¬ |freq_offset_hz cfg i| > (use_range cfg : ℚ)

instance (cfg : Config) (i : Nat) : Decidable (use_bin cfg i) := by
  unfold use_bin
  infer_instance

/-- The mosaic index that bin `i` writes in one iteration of the stitch loop, if
it writes one: the bin passes the guard and its `global_index` passes the
bounds check. -/
def bin_target (cfg : Config) (base_index : Nat) (bins_per_mhz : ℚ) (total_bins : Nat)
    (i : Nat) : Option Nat :=
  let g := global_index cfg base_index bins_per_mhz i
  if use_bin cfg i ∧ 0 ≤ g ∧ g < (total_bins : Int) then some g.toNat else none

/-- The mosaic index that bin `i` writes during the stitch of a step tuned to
`freq` from state `s`, if it writes one. -/
def stitch_target (cfg : Config) (s : WidebandState) (freq : Nat) (i : Nat) : Option Nat :=
  bin_target cfg (base_index cfg s freq) (bins_per_mhz cfg s) s.full_spectrum.length i

/-- What the sweep thread observes from outside itself. A receiver call is
identified by the sweep number (`sweep_count`), the step number within the sweep
(`step_count`) and, for a capture, the chunk number.
* `setup` holds the statuses of the seven calls made before the sweep loop
  (`bladerf_open` to `bladerf_enable_module`), in order;
* `set_frequency sweep step freq` is the status of `bladerf_set_frequency`;
* `sync_rx sweep step chunk` is the status of `bladerf_sync_rx`;
* `fft_result sweep step chunk i` is bin `i` of the line `process_fft` returns
  for that capture (always `FFT_SIZE` bins);
* `stop_requested sweep step` tells whether the main thread has cleared
  `running` by the time the sweep thread evaluates the loop condition before
  step `step` of sweep `sweep` (`step = 0`: the condition of the outer loop
  before the sweep). -/
structure Environment where
  setup : List Int
  set_frequency : Nat → Nat → Nat → Int
  sync_rx : Nat → Nat → Nat → Int
  fft_result : Nat → Nat → Nat → Nat → ℚ
  stop_requested : Nat → Nat → Bool

/-- A read of the atomic flag `running`: the value the sweep thread holds unless
the main thread has cleared it in the meantime. -/
def observe_running (env : Environment) (sweep step : Nat) (s : WidebandState) :
    WidebandState :=
  { s with running := s.running && !env.stop_requested sweep step }

/-- The accumulation `avg_spectrum[i] += fft_result[i]` over the bins of
`fft_result`. -/
def accumulate (avg_spectrum fft_result : List ℚ) : List ℚ :=
  (List.range fft_result.length).foldl
    (fun a i => a.set i (a.getD i 0 + fft_result.getD i 0)) avg_spectrum

/-- The chunk loop of a step, over the chunk numbers still to do: a failed
`bladerf_sync_rx` leaves the loop (`break`), a successful one is transformed and
accumulated. -/
def chunk_loop (cfg : Config) (env : Environment) (sweep step : Nat) :
    List Nat → List ℚ → List ℚ
  | [], avg_spectrum => avg_spectrum
  | chunk :: rest, avg_spectrum =>
    if env.sync_rx sweep step chunk ≠ 0 then avg_spectrum
    else
      chunk_loop cfg env sweep step rest
        (accumulate avg_spectrum
          ((List.range cfg.FFT_SIZE).map (env.fft_result sweep step chunk)))

/-- The averaged line of a step: the chunk loop from an all-zero accumulator
(`std::vector<float> avg_spectrum(FFT_SIZE, 0.0f)`), then the division of every
bin by `num_chunks`. -/
def averaged_line (cfg : Config) (env : Environment) (sweep step : Nat) (num_chunks : Int) :
    List ℚ :=
  (chunk_loop cfg env sweep step (List.range num_chunks.toNat)
    (List.replicate cfg.FFT_SIZE 0)).map (fun v => v / (num_chunks : ℚ))

/-- The body of the step loop for the frequency `freq`: tune, collect and
average the chunks, stitch. `none` is the `break` after a failed
`bladerf_set_frequency`. -/
def step_body (cfg : Config) (env : Environment) (sweep step_count : Nat)
    (s : WidebandState) (freq : Nat) : Option WidebandState :=
  if env.set_frequency sweep step_count freq ≠ 0 then none
  else
    some (stitch cfg { s with current_freq := freq } freq
      (averaged_line cfg env sweep step_count s.num_chunks))

/-- The outcome of running a loop of the sweep thread on bounded fuel: the state
reached, the frequencies tuned successfully, in order, and whether the loop was
left (`false`: the fuel ran out first). -/
structure Run where
  state : WidebandState
  tuned : List Nat
  finished : Bool

/-- The step loop `while (freq <= end_freq && running)` of one sweep, with at
most `fuel` evaluations of its condition; `freq += STEP_SIZE_MHZ * 1000000ULL`
is unsigned 64-bit. -/
def step_loop (cfg : Config) (env : Environment) (sweep : Nat) :
    Nat → WidebandState → Nat → Nat → Run
  | 0, s, _, _ => ⟨s, [], false⟩
  | fuel + 1, s, freq, step_count =>
    if freq ≤ s.end_freq then
      let s1 := observe_running env sweep (step_count + 1) s
      if s1.running then
        match step_body cfg env sweep (step_count + 1) s1 freq with
        | none => ⟨s1, [], true⟩
        | some s2 =>
          let r := step_loop cfg env sweep fuel s2
            (wrap64 (freq + wrap64 (cfg.STEP_SIZE_MHZ * 1000000))) (step_count + 1)
          ⟨r.state, freq :: r.tuned, r.finished⟩
      else ⟨s1, [], true⟩
    else ⟨s, [], true⟩

/-- The reset at the start of a sweep: the three `std::fill`s and the `clear` of
the history. -/
def sweep_reset (s : WidebandState) : WidebandState :=
  { s with
    full_spectrum := List.replicate s.full_spectrum.length (-80)
    peak_spectrum := List.replicate s.peak_spectrum.length (-120)
    avg_spectrum_acc := List.replicate s.avg_spectrum_acc.length (-80)
    waterfall_history := [] }

/-- One iteration of the main sweep loop: count the sweep, reset, run the step
loop from `start_freq`, then add the waterfall line. -/
def sweep (cfg : Config) (env : Environment) (fuel : Nat) (s : WidebandState) : Run :=
  let s1 : WidebandState := { s with sweep_count := s.sweep_count + 1 }
  let s2 := sweep_reset s1
  let r := step_loop cfg env s1.sweep_count fuel s2 s2.start_freq 0
  if r.finished then ⟨r.state.add_waterfall_line cfg, r.tuned, true⟩ else r

/-- The main loop `while (wideband_state.running)` of the sweep thread, for at
most `sweeps` evaluations of its condition, each sweep on `fuel`. -/
def sweep_loop (cfg : Config) (env : Environment) (fuel : Nat) :
    Nat → WidebandState → Run
  | 0, s => ⟨s, [], false⟩
  | sweeps + 1, s =>
    let s1 := observe_running env (s.sweep_count + 1) 0 s
    if s1.running then
      let r := sweep cfg env fuel s1
      if r.finished then
        let r2 := sweep_loop cfg env fuel sweeps r.state
        ⟨r2.state, r.tuned ++ r2.tuned, r2.finished⟩
      else r
    else ⟨s1, [], true⟩

/-- The function `bladerf_sweep_thread`: when one of the set-up calls fails the
thread clears `running` and returns; otherwise it runs the sweep loop. -/
def bladerf_sweep_thread (cfg : Config) (env : Environment) (fuel sweeps : Nat)
    (s : WidebandState) : Run :=
  if env.setup.any (fun status => status ≠ 0) then ⟨{ s with running := false }, [], true⟩
  else sweep_loop cfg env fuel sweeps s

/-- The library routines `process_fft` calls: `fftw_execute` on the plan made in
the constructor (a forward transform of `FFT_SIZE` complex values, given as
pairs of real and imaginary part) and `log10f`. -/
structure Numerics where
  fftw_execute : List (ℚ × ℚ) → List (ℚ × ℚ)
  log10f : ℚ → ℚ

/-- The first loop of `process_fft`: the samples of the capture `iq_data`, scaled
by 2048 and multiplied by the window, as the transform input `fft_in`. -/
def fft_input (cfg : Config) (window : List ℚ) (iq_data : List Int) : List (ℚ × ℚ) :=
  (List.range cfg.FFT_SIZE).map fun i =>
    let i_val : ℚ := (iq_data.getD (2 * i) 0 : ℚ) / 2048
    let q_val : ℚ := (iq_data.getD (2 * i + 1) 0 : ℚ) / 2048
    (i_val * window.getD i 0, q_val * window.getD i 0)

/-- The loop of `process_fft` that sums the squares of the window coefficients. -/
def window_power_sum (cfg : Config) (window : List ℚ) : ℚ :=
  (List.range cfg.FFT_SIZE).foldl (fun acc i => acc + window.getD i 0 * window.getD i 0) 0

/-- The array `fft_result` of `process_fft` before the shift: for every bin the
power `(real² + imag²) / (FFT_SIZE * FFT_SIZE)` in dB, `10 * log10f(power + 1e-20)`,
minus `window_correction = 10 * log10f(window_power_sum / FFT_SIZE)`. -/
def unshifted_db (cfg : Config) (num : Numerics) (window : List ℚ) (iq_data : List Int) :
    List ℚ :=
  let fft_out := num.fftw_execute (fft_input cfg window iq_data)
  let window_correction := 10 * num.log10f (window_power_sum cfg window / (cfg.FFT_SIZE : ℚ))
  (List.range cfg.FFT_SIZE).map fun i =>
    let real := (fft_out.getD i (0, 0)).1
    let imag := (fft_out.getD i (0, 0)).2
    let power := (real * real + imag * imag) / ((cfg.FFT_SIZE : ℚ) * (cfg.FFT_SIZE : ℚ))
    let db := 10 * num.log10f (power + 1e-20)
    db - window_correction

/-- The FFT shift at the end of `process_fft`: a zero-filled vector `shifted` of
`FFT_SIZE` values, and for every `i < half` the two assignments
`shifted[i] = fft_result[i + half]` and `shifted[i + half] = fft_result[i]`. -/
def fft_shift (cfg : Config) (fft_result : List ℚ) : List ℚ :=
  let half := cfg.FFT_SIZE / 2
  (List.range half).foldl
    (fun shifted i =>
      (shifted.set i (fft_result.getD (i + half) 0)).set (i + half) (fft_result.getD i 0))
    (List.replicate cfg.FFT_SIZE 0)

/-- The function `process_fft`, from the capture `iq_data` and the window of the
shared state to the line it stores in `fft_result`. -/
def process_fft (cfg : Config) (num : Numerics) (window : List ℚ) (iq_data : List Int) :
    List ℚ :=
  fft_shift cfg (unshifted_db cfg num window iq_data)

/-! ## Construction -/

theorem wrap64_of_lt {n : Nat} (h : n < 18446744073709551616) : wrap64 n = n :=
  Nat.mod_eq_of_lt h

theorem sub64_of_le {a b : Nat} (hb : b ≤ a) (ha : a < 18446744073709551616) :
    sub64 a b = a - b := by
  unfold sub64 wrap64
  omega

theorem init_full_spectrum_length (cfg : Config) :
    (WidebandState.init cfg).full_spectrum.length
      = total_bins cfg (WidebandState.init cfg).start_freq (WidebandState.init cfg).end_freq := by
  simp [WidebandState.init]

theorem init_peak_spectrum_length (cfg : Config) :
    (WidebandState.init cfg).peak_spectrum.length
      = total_bins cfg (WidebandState.init cfg).start_freq (WidebandState.init cfg).end_freq := by
  simp [WidebandState.init]

theorem total_bins_of_fits (cfg : Config) (a b : Nat) (hab : a ≤ b)
    (hfit : b + cfg.SAMPLE_RATE + cfg.FFT_SIZE < 18446744073709551616) :
    total_bins cfg a b
      = (b - a + cfg.SAMPLE_RATE) / (cfg.SAMPLE_RATE / cfg.FFT_SIZE) + cfg.FFT_SIZE := by
  unfold total_bins
  rw [sub64_of_le hab (by omega)]
  dsimp only
  rw [wrap64_of_lt (n := b - a + cfg.SAMPLE_RATE) (by omega)]
  apply wrap64_of_lt
  have := Nat.div_le_self (b - a + cfg.SAMPLE_RATE) (cfg.SAMPLE_RATE / cfg.FFT_SIZE)
  omega

theorem total_bins_configured : total_bins configured 80000000 110000000 = 20384 := by
  decide

/-- C1 (as the code has it): at construction the mosaic and the peak trace both
have `(band_width + SAMPLE_RATE) / (SAMPLE_RATE / FFT_SIZE) + FFT_SIZE` cells,
where `band_width = end_freq - start_freq` (as long as the band fits the 64-bit
frequency range); for the configured constants that is 20384 cells. -/
theorem init_spectrum_length (cfg : Config)
    (hband : cfg.START_FREQ_MHZ ≤ cfg.END_FREQ_MHZ)
    (hfit : cfg.END_FREQ_MHZ * 1000000 + cfg.SAMPLE_RATE + cfg.FFT_SIZE
              < 18446744073709551616) :
    ((WidebandState.init cfg).full_spectrum.length
        = ((WidebandState.init cfg).end_freq - (WidebandState.init cfg).start_freq
            + cfg.SAMPLE_RATE) / (cfg.SAMPLE_RATE / cfg.FFT_SIZE) + cfg.FFT_SIZE
      ∧ (WidebandState.init cfg).peak_spectrum.length
        = (WidebandState.init cfg).full_spectrum.length)
      ∧ (WidebandState.init configured).full_spectrum.length = 20384
      ∧ (WidebandState.init configured).peak_spectrum.length = 20384 := by
  have hs : (WidebandState.init cfg).start_freq = cfg.START_FREQ_MHZ * 1000000 := by
    show wrap64 _ = _
    exact wrap64_of_lt (by omega)
  have he : (WidebandState.init cfg).end_freq = cfg.END_FREQ_MHZ * 1000000 := by
    show wrap64 _ = _
    exact wrap64_of_lt (by omega)
  refine ⟨⟨?_, ?_⟩, ?_, ?_⟩
  · rw [init_full_spectrum_length, hs, he]
    exact total_bins_of_fits cfg _ _ (by omega) (by omega)
  · rw [init_full_spectrum_length, init_peak_spectrum_length]
  · rw [init_full_spectrum_length]
    exact total_bins_configured
  · rw [init_peak_spectrum_length]
    exact total_bins_configured

/-- The hypotheses of `init_spectrum_length` hold for the configured constants. -/
theorem init_spectrum_length_witness :
    (WidebandState.init configured).full_spectrum.length
        = ((WidebandState.init configured).end_freq
            - (WidebandState.init configured).start_freq
            + configured.SAMPLE_RATE) / (configured.SAMPLE_RATE / configured.FFT_SIZE)
          + configured.FFT_SIZE :=
  (init_spectrum_length configured (by decide) (by decide)).1.1

/-- C1 (as stated) fails: for the configured 80-110 MHz band, 61.44 MS/s and
`FFT_SIZE` 8192 the formula of the claim gives 12192, and the mosaic the
constructor allocates does not have that many cells. -/
theorem init_spectrum_length_not_12192 :
    (110000000 - 80000000 + configured.SAMPLE_RATE)
        / (configured.SAMPLE_RATE / configured.FFT_SIZE) = 12192
      ∧ (WidebandState.init configured).full_spectrum.length ≠ 12192 := by
  refine ⟨by decide, ?_⟩
  rw [init_full_spectrum_length]
  show total_bins configured 80000000 110000000 ≠ 12192
  rw [total_bins_configured]
  decide


/-! ## The stitch loop -/

section StitchLemmas

variable (cfg : Config) (b : Nat) (m : ℚ) (t : Nat) (avg : List ℚ)

theorem stitch_bin_of_none (s : WidebandState) (i : Nat)
    (h : bin_target cfg b m t i = none) : stitch_bin cfg b m t avg s i = s := by
  unfold bin_target use_bin at h
  unfold stitch_bin
  by_cases h1 : |freq_offset_hz cfg i| > (use_range cfg : ℚ)
  · simp [h1]
  · by_cases h2 : 0 ≤ global_index cfg b m i ∧ global_index cfg b m i < (t : Int)
    · simp [h1, h2] at h
    · simp [h1, h2]

theorem stitch_bin_full_spectrum (s : WidebandState) (i : Nat) :
    (stitch_bin cfg b m t avg s i).full_spectrum
      = match bin_target cfg b m t i with
        | some g => s.full_spectrum.set g (avg.getD i 0)
        | none => s.full_spectrum := by
  unfold bin_target use_bin stitch_bin
  by_cases h1 : |freq_offset_hz cfg i| > (use_range cfg : ℚ)
  · simp [h1]
  · by_cases h2 : 0 ≤ global_index cfg b m i ∧ global_index cfg b m i < (t : Int)
    · simp only [h1, h2, if_false, if_true, not_false_eq_true, and_self]
      split_ifs <;> rfl
    · simp [h1, h2]

theorem stitch_bin_peak_spectrum (s : WidebandState) (i : Nat) :
    (stitch_bin cfg b m t avg s i).peak_spectrum
      = match bin_target cfg b m t i with
        | some g =>
            if s.peak_hold_enabled then
              s.peak_spectrum.set g
                (if avg.getD i 0 > s.peak_spectrum.getD g 0 then avg.getD i 0
                 else s.peak_spectrum.getD g 0 - 0.05)
            else s.peak_spectrum
        | none => s.peak_spectrum := by
  unfold bin_target use_bin stitch_bin
  by_cases h1 : |freq_offset_hz cfg i| > (use_range cfg : ℚ)
  · simp [h1]
  · by_cases h2 : 0 ≤ global_index cfg b m i ∧ global_index cfg b m i < (t : Int)
    · simp only [h1, h2, if_false, if_true, not_false_eq_true, and_self]
      split_ifs <;> simp_all
    · simp [h1, h2]

theorem stitch_bin_peak_hold_enabled (s : WidebandState) (i : Nat) :
    (stitch_bin cfg b m t avg s i).peak_hold_enabled = s.peak_hold_enabled := by
  unfold stitch_bin
  dsimp only
  split_ifs <;> rfl

theorem stitch_bin_avg_alpha (s : WidebandState) (i : Nat) (a : ℚ) :
    stitch_bin cfg b m t avg { s with avg_alpha := a } i
      = { stitch_bin cfg b m t avg s i with avg_alpha := a } := by
  unfold stitch_bin
  dsimp only
  split_ifs <;> rfl

theorem foldl_range_succ {α : Type} (f : α → Nat → α) (a : α) (n : Nat) :
    (List.range (n + 1)).foldl f a = f ((List.range n).foldl f a) n := by
  rw [List.range_succ, List.foldl_append]
  rfl

theorem stitch_fold_full_length (s : WidebandState) (n : Nat) :
    ((List.range n).foldl (stitch_bin cfg b m t avg) s).full_spectrum.length
      = s.full_spectrum.length := by
  induction n with
  | zero => rfl
  | succ n ih =>
    rw [foldl_range_succ, stitch_bin_full_spectrum]
    split <;> simp [ih]

theorem stitch_fold_untouched (s : WidebandState) (g : Nat) (n : Nat)
    (h : ∀ i, i < n → bin_target cfg b m t i ≠ some g) :
    ((List.range n).foldl (stitch_bin cfg b m t avg) s).full_spectrum[g]?
      = s.full_spectrum[g]? := by
  induction n with
  | zero => rfl
  | succ n ih =>
    rw [foldl_range_succ, stitch_bin_full_spectrum]
    have hn := h n (Nat.lt_succ_self n)
    have ih' := ih (fun i hi => h i (Nat.lt_succ_of_lt hi))
    split
    · rename_i g' hg'
      have hne : g' ≠ g := fun e => hn (by rw [hg', e])
      rw [List.getElem?_set, if_neg hne, ih']
    · exact ih'

theorem stitch_fold_last (s : WidebandState) (g : Nat) (hg : g < s.full_spectrum.length)
    (n : Nat) (i : Nat) (hi : i < n) (hit : bin_target cfg b m t i = some g)
    (hlast : ∀ j, i < j → j < n → bin_target cfg b m t j ≠ some g) :
    ((List.range n).foldl (stitch_bin cfg b m t avg) s).full_spectrum[g]?
      = some (avg.getD i 0) := by
  induction n with
  | zero => exact absurd hi (Nat.not_lt_zero i)
  | succ n ih =>
    rw [foldl_range_succ, stitch_bin_full_spectrum]
    rcases Nat.lt_succ_iff_lt_or_eq.mp hi with hlt | heq
    · have hn := hlast n hlt (Nat.lt_succ_self n)
      have ih' := ih hlt (fun j hij hjn => hlast j hij (Nat.lt_succ_of_lt hjn))
      split
      · rename_i g' hg'
        have hne : g' ≠ g := fun e => hn (by rw [hg', e])
        rw [List.getElem?_set, if_neg hne, ih']
      · exact ih'
    · subst heq
      rw [hit]
      simp only
      rw [List.getElem?_set, if_pos rfl, if_pos]
      rw [stitch_fold_full_length]
      exact hg

theorem stitch_fold_avg_alpha (s : WidebandState) (a : ℚ) (n : Nat) :
    (List.range n).foldl (stitch_bin cfg b m t avg) { s with avg_alpha := a }
      = { (List.range n).foldl (stitch_bin cfg b m t avg) s with avg_alpha := a } := by
  induction n with
  | zero => rfl
  | succ n ih => rw [foldl_range_succ, foldl_range_succ, ih, stitch_bin_avg_alpha]

theorem stitch_fold_peak_disabled (s : WidebandState) (h : s.peak_hold_enabled = false)
    (n : Nat) :
    ((List.range n).foldl (stitch_bin cfg b m t avg) s).peak_spectrum = s.peak_spectrum
      ∧ ((List.range n).foldl (stitch_bin cfg b m t avg) s).peak_hold_enabled = false := by
  induction n with
  | zero => exact ⟨rfl, h⟩
  | succ n ih =>
    rw [foldl_range_succ, stitch_bin_peak_spectrum, stitch_bin_peak_hold_enabled]
    refine ⟨?_, ih.2⟩
    split <;> simp [ih.1, ih.2]

end StitchLemmas

theorem bin_target_lt {cfg : Config} {b : Nat} {m : ℚ} {t i g : Nat}
    (h : bin_target cfg b m t i = some g) : g < t := by
  unfold bin_target at h
  simp only at h
  split_ifs at h with hc
  injection h with h
  omega

/-! ## The configured constants -/

theorem truncate_of_nonneg {q : ℚ} {z : Int} (h0 : 0 ≤ q) (h1 : (z : ℚ) ≤ q)
    (h2 : q < (z : ℚ) + 1) : truncate q = z := by
  unfold truncate
  rw [if_pos h0]
  exact Int.floor_eq_iff.mpr ⟨h1, h2⟩

theorem truncate_of_neg {q : ℚ} {z : Int} (h0 : q < 0) (h1 : (z : ℚ) - 1 < q)
    (h2 : q ≤ (z : ℚ)) : truncate q = z := by
  unfold truncate
  rw [if_neg (not_le.mpr h0)]
  exact Int.ceil_eq_iff.mpr ⟨h1, h2⟩

theorem hz_per_bin_configured : hz_per_bin configured = 7500 := by
  norm_num [hz_per_bin, configured]

theorem use_range_configured : use_range configured = 25000000 := by
  decide

theorem freq_offset_hz_configured (i : Nat) :
    freq_offset_hz configured i = ((i : ℚ) - 4096) * 7500 := by
  rw [freq_offset_hz, hz_per_bin_configured]
  norm_num [configured]

/-- For the configured constants the guard of the stitch loop keeps the bins
763 to 7429. -/
theorem use_bin_configured_iff (i : Nat) : use_bin configured i ↔ 763 ≤ i ∧ i ≤ 7429 := by
  unfold use_bin
  rw [freq_offset_hz_configured, use_range_configured, gt_iff_lt, not_lt, abs_le]
  constructor
  · rintro ⟨h1, h2⟩
    have h1' : (762 : ℚ) < (i : ℚ) := by push_cast at h1 ⊢; linarith
    have h2' : (i : ℚ) < (7430 : ℚ) := by push_cast at h2 ⊢; linarith
    have h3 : 762 < i := by exact_mod_cast h1'
    have h4 : i < 7430 := by exact_mod_cast h2'
    omega
  · rintro ⟨h1, h2⟩
    have h1' : (763 : ℚ) ≤ (i : ℚ) := by exact_mod_cast h1
    have h2' : (i : ℚ) ≤ (7429 : ℚ) := by exact_mod_cast h2
    constructor <;> push_cast <;> linarith

section ConfiguredState

variable (s : WidebandState) (hs : s.start_freq = 80000000) (he : s.end_freq = 110000000)
  (hl : s.full_spectrum.length = 20384)

include hs he in
theorem extended_range_configured : extended_range configured s = 91440000 := by
  rw [extended_range, hs, he]
  decide

include hs in
theorem array_start_freq_configured : array_start_freq configured s = 49280000 := by
  rw [array_start_freq, hs]
  decide

include hs he hl in
theorem bins_per_mhz_configured : bins_per_mhz configured s = 224 := by
  rw [bins_per_mhz, extended_range_configured s hs he, hl]
  norm_num

theorem toInt64_of_lt {n : Nat} (h : n < 9223372036854775808) : toInt64 n = (n : Int) := by
  unfold toInt64 wrap64
  rw [Nat.mod_eq_of_lt (by omega), if_pos h]

include hs he hl in
/-- The exact position of a frequency in the configured mosaic, before the
truncation to an index. -/
theorem base_index_configured (freq : Nat) (z : Nat) (hf : 49280000 ≤ freq)
    (hf' : freq < 9223372036854775808)
    (h1 : z * 2857500 ≤ (freq - 49280000) * 637)
    (h2 : (freq - 49280000) * 637 < (z + 1) * 2857500) :
    base_index configured s freq = z := by
  unfold base_index
  rw [array_start_freq_configured s hs, extended_range_configured s hs he, hl,
    toInt64_of_lt hf', toInt64_of_lt (by norm_num)]
  have hz : truncate ((((freq : Int) - ((49280000 : Nat) : Int) : Int) : ℚ)
      / ((91440000 : Nat) : ℚ) * ((20384 : Nat) : ℚ)) = (z : Int) := by
    have e : ((((freq : Int) - ((49280000 : Nat) : Int) : Int) : ℚ)
        / ((91440000 : Nat) : ℚ) * ((20384 : Nat) : ℚ))
        = (((freq - 49280000 : Nat) : ℚ) * 637) / 2857500 := by
      push_cast [Nat.cast_sub hf]
      ring
    have h1' : ((z : ℚ) * 2857500) ≤ ((freq - 49280000 : Nat) : ℚ) * 637 := by
      exact_mod_cast h1
    have h2' : ((freq - 49280000 : Nat) : ℚ) * 637 < ((z : ℚ) + 1) * 2857500 := by
      exact_mod_cast h2
    rw [e]
    apply truncate_of_nonneg
    · exact div_nonneg (mul_nonneg (Nat.cast_nonneg _) (by norm_num)) (by norm_num)
    · rw [le_div_iff₀ (by norm_num)]
      exact_mod_cast h1'
    · rw [div_lt_iff₀ (by norm_num)]
      exact_mod_cast h2'
  simp only at hz ⊢
  rw [hz]
  rfl

end ConfiguredState

theorem global_index_of_small (cfg : Config) (b : Nat) (m : ℚ) (i : Nat) (z : Int)
    (hz : truncate (freq_offset_hz cfg i / 1000000 * m) = z)
    (h0 : 0 ≤ (b : Int) + z) (h1 : (b : Int) + z < 9223372036854775808) :
    global_index cfg b m i = (b : Int) + z := by
  unfold global_index
  simp only
  rw [hz, Int.emod_eq_of_lt h0 (by omega)]
  rw [toInt64_of_lt (by omega)]
  omega

theorem init_configured_start_freq : (WidebandState.init configured).start_freq = 80000000 := by
  decide

theorem init_configured_end_freq : (WidebandState.init configured).end_freq = 110000000 := by
  decide

theorem init_configured_length : (WidebandState.init configured).full_spectrum.length = 20384 := by
  rw [init_full_spectrum_length]
  exact total_bins_configured

theorem stitch_target_of_not_use_bin (cfg : Config) (s : WidebandState) (freq i : Nat)
    (h : ¬ use_bin cfg i) : stitch_target cfg s freq i = none := by
  unfold stitch_target bin_target
  simp [h]

section ConfiguredTargets

variable (s : WidebandState) (hs : s.start_freq = 80000000) (he : s.end_freq = 110000000)
  (hl : s.full_spectrum.length = 20384)

include hs he hl in
theorem base_index_80MHz : base_index configured s 80000000 = 6848 :=
  base_index_configured s hs he hl 80000000 6848 (by norm_num) (by norm_num) (by norm_num)
    (by norm_num)

include hs he hl in
/-- Bins in the upper half of a configured step whose base index is `b`: bin
`4096 + k` writes the mosaic index `b + ⌊k * 42 / 25⌋`. -/
theorem stitch_target_configured_upper (freq b k z : Nat)
    (hb : base_index configured s freq = b) (hk : k ≤ 3333)
    (h1 : z * 25 ≤ k * 42) (h2 : k * 42 < (z + 1) * 25) (hbz : b + z < 20384) :
    stitch_target configured s freq (4096 + k) = some (b + z) := by
  have hu : use_bin configured (4096 + k) := (use_bin_configured_iff _).mpr (by omega)
  have ht : truncate (freq_offset_hz configured (4096 + k) / 1000000
      * bins_per_mhz configured s) = (z : Int) := by
    rw [freq_offset_hz_configured, bins_per_mhz_configured s hs he hl]
    have e : (((4096 + k : Nat) : ℚ) - 4096) * 7500 / 1000000 * 224 = ((k : ℚ) * 42) / 25 := by
      push_cast
      ring
    rw [e]
    have h1' : ((z : ℚ) * 25) ≤ (k : ℚ) * 42 := by exact_mod_cast h1
    have h2' : (k : ℚ) * 42 < ((z : ℚ) + 1) * 25 := by exact_mod_cast h2
    apply truncate_of_nonneg
    · exact div_nonneg (mul_nonneg (Nat.cast_nonneg _) (by norm_num)) (by norm_num)
    · rw [le_div_iff₀ (by norm_num)]
      exact_mod_cast h1'
    · rw [div_lt_iff₀ (by norm_num)]
      exact_mod_cast h2'
  have hg := global_index_of_small configured (base_index configured s freq)
    (bins_per_mhz configured s) (4096 + k) (z : Int) ht
    (by rw [hb]; omega) (by rw [hb]; omega)
  unfold stitch_target bin_target
  simp only
  rw [hg, hb, hl]
  rw [if_pos ⟨hu, by omega, by omega⟩]
  congr 1

include hs he hl in
/-- Bins in the lower half of a configured step whose base index is `b`: bin
`4096 - k` writes the mosaic index `b - ⌊k * 42 / 25⌋` (the conversion truncates
toward zero). -/
theorem stitch_target_configured_lower (freq b k z : Nat)
    (hb : base_index configured s freq = b) (hk0 : 0 < k) (hk : k ≤ 3333)
    (h1 : z * 25 ≤ k * 42) (h2 : k * 42 < (z + 1) * 25) (hzb : z ≤ b)
    (hbz : b < 20384 + z) :
    stitch_target configured s freq (4096 - k) = some (b - z) := by
  have hu : use_bin configured (4096 - k) := (use_bin_configured_iff _).mpr (by omega)
  have ht : truncate (freq_offset_hz configured (4096 - k) / 1000000
      * bins_per_mhz configured s) = -(z : Int) := by
    rw [freq_offset_hz_configured, bins_per_mhz_configured s hs he hl]
    have e : (((4096 - k : Nat) : ℚ) - 4096) * 7500 / 1000000 * 224 = -(((k : ℚ) * 42) / 25) := by
      rw [Nat.cast_sub (by omega)]
      push_cast
      ring
    rw [e]
    have hk0' : (0 : ℚ) < (k : ℚ) := by exact_mod_cast hk0
    have h1' : ((z : ℚ) * 25) ≤ (k : ℚ) * 42 := by exact_mod_cast h1
    have h2' : (k : ℚ) * 42 < ((z : ℚ) + 1) * 25 := by exact_mod_cast h2
    have hq1 : (z : ℚ) ≤ (k : ℚ) * 42 / 25 := by
      rw [le_div_iff₀ (by norm_num)]
      exact h1'
    have hq2 : (k : ℚ) * 42 / 25 < (z : ℚ) + 1 := by
      rw [div_lt_iff₀ (by norm_num)]
      exact h2'
    have hpos : (0 : ℚ) < (k : ℚ) * 42 / 25 := by
      apply div_pos (mul_pos hk0' (by norm_num)) (by norm_num)
    apply truncate_of_neg
    · linarith
    · push_cast
      linarith
    · push_cast
      linarith
  have hg := global_index_of_small configured (base_index configured s freq)
    (bins_per_mhz configured s) (4096 - k) (-(z : Int)) ht
    (by rw [hb]; omega) (by rw [hb]; omega)
  unfold stitch_target bin_target
  simp only
  rw [hg, hb, hl]
  rw [if_pos ⟨hu, by omega, by omega⟩]
  congr 1
  omega

end ConfiguredTargets

/-! ## Frame conditions of the stitch -/

theorem stitch_bin_frame (cfg : Config) (b : Nat) (m : ℚ) (t : Nat) (avg : List ℚ)
    (s : WidebandState) (i : Nat) :
    (stitch_bin cfg b m t avg s i).start_freq = s.start_freq
      ∧ (stitch_bin cfg b m t avg s i).end_freq = s.end_freq
      ∧ (stitch_bin cfg b m t avg s i).running = s.running
      ∧ (stitch_bin cfg b m t avg s i).waterfall_history = s.waterfall_history
      ∧ (stitch_bin cfg b m t avg s i).sweep_count = s.sweep_count
      ∧ (stitch_bin cfg b m t avg s i).num_chunks = s.num_chunks := by
  unfold stitch_bin
  dsimp only
  split_ifs <;> exact ⟨rfl, rfl, rfl, rfl, rfl, rfl⟩

theorem stitch_frame (cfg : Config) (s : WidebandState) (freq : Nat) (avg : List ℚ) :
    (stitch cfg s freq avg).start_freq = s.start_freq
      ∧ (stitch cfg s freq avg).end_freq = s.end_freq
      ∧ (stitch cfg s freq avg).running = s.running
      ∧ (stitch cfg s freq avg).waterfall_history = s.waterfall_history
      ∧ (stitch cfg s freq avg).sweep_count = s.sweep_count
      ∧ (stitch cfg s freq avg).num_chunks = s.num_chunks := by
  unfold stitch
  dsimp only
  generalize avg.length = n
  induction n with
  | zero => exact ⟨rfl, rfl, rfl, rfl, rfl, rfl⟩
  | succ n ih =>
    rw [foldl_range_succ]
    obtain ⟨h1, h2, h3, h4, h5, h6⟩ := stitch_bin_frame cfg (base_index cfg s freq)
      (bins_per_mhz cfg s) s.full_spectrum.length avg
      ((List.range n).foldl (stitch_bin cfg (base_index cfg s freq) (bins_per_mhz cfg s)
        s.full_spectrum.length avg) s) n
    exact ⟨h1.trans ih.1, h2.trans ih.2.1, h3.trans ih.2.2.1, h4.trans ih.2.2.2.1,
      h5.trans ih.2.2.2.2.1, h6.trans ih.2.2.2.2.2⟩

theorem stitch_full_length (cfg : Config) (s : WidebandState) (freq : Nat) (avg : List ℚ) :
    (stitch cfg s freq avg).full_spectrum.length = s.full_spectrum.length :=
  stitch_fold_full_length cfg _ _ _ avg s avg.length

theorem stitch_target_after_stitch (cfg : Config) (s : WidebandState) (f freq : Nat)
    (avg : List ℚ) (i : Nat) :
    stitch_target cfg (stitch cfg s f avg) freq i = stitch_target cfg s freq i := by
  obtain ⟨h1, h2, -⟩ := stitch_frame cfg s f avg
  have h3 := stitch_full_length cfg s f avg
  unfold stitch_target base_index bins_per_mhz extended_range array_start_freq
  rw [h1, h2, h3]

theorem stitch_last_write (cfg : Config) (s : WidebandState) (freq : Nat) (avg : List ℚ)
    (g i : Nat) (hi : i < avg.length) (hit : stitch_target cfg s freq i = some g)
    (hlast : ∀ j, i < j → j < avg.length → stitch_target cfg s freq j ≠ some g) :
    (stitch cfg s freq avg).full_spectrum[g]? = some (avg.getD i 0) :=
  stitch_fold_last cfg _ _ _ avg s g (bin_target_lt hit) avg.length i hi hit hlast

/-! ## History -/

/-- C2: for a history of at most `WATERFALL_HISTORY` (20) lines,
`add_waterfall_line` yields a history of at most 20 lines whose last entry is
the current mosaic; a history of fewer than 20 lines is kept whole, in order,
before the new line, and from a history of exactly 20 lines exactly the front
entry is removed, the other 19 keeping their order. -/
theorem add_waterfall_line_fifo (s : WidebandState) (h : s.waterfall_history.length ≤ 20) :
    (s.add_waterfall_line configured).waterfall_history.length ≤ 20
      ∧ (s.add_waterfall_line configured).waterfall_history.getLast? = some s.full_spectrum
      ∧ (s.waterfall_history.length < 20 →
          (s.add_waterfall_line configured).waterfall_history
            = s.waterfall_history ++ [s.full_spectrum])
      ∧ (s.waterfall_history.length = 20 →
          ∃ oldest rest, s.waterfall_history = oldest :: rest ∧ rest.length = 19
            ∧ (s.add_waterfall_line configured).waterfall_history
                = rest ++ [s.full_spectrum]) := by
  have hcfg : configured.WATERFALL_HISTORY = 20 := rfl
  rcases Nat.lt_or_eq_of_le h with hlt | heq
  · have hnew : (s.add_waterfall_line configured).waterfall_history
        = s.waterfall_history ++ [s.full_spectrum] := by
      unfold WidebandState.add_waterfall_line
      simp only [hcfg, List.length_append, List.length_singleton]
      rw [if_neg (by omega)]
    refine ⟨?_, ?_, fun _ => hnew, fun h20 => absurd h20 (by omega)⟩
    · rw [hnew, List.length_append, List.length_singleton]
      omega
    · rw [hnew, List.getLast?_append]
      rfl
  · cases hh : s.waterfall_history with
    | nil => rw [hh] at heq; exact absurd heq (by decide)
    | cons oldest rest =>
      have hrest : rest.length = 19 := by
        rw [hh, List.length_cons] at heq
        omega
      have hnew : (s.add_waterfall_line configured).waterfall_history
          = rest ++ [s.full_spectrum] := by
        unfold WidebandState.add_waterfall_line
        simp only [hcfg, hh, List.length_append, List.length_singleton, List.length_cons,
          List.cons_append, List.tail_cons]
        rw [if_pos (by omega)]
      refine ⟨?_, ?_, fun hlt => absurd hlt (by rw [List.length_cons, hrest]; decide), fun _ => ⟨oldest, rest, rfl, hrest, hnew⟩⟩
      · rw [hnew, List.length_append, List.length_singleton]
        omega
      · rw [hnew, List.getLast?_append]
        rfl

/-- A state whose history is full: twenty recorded lines. -/
def full_history_state : WidebandState :=
  { WidebandState.init configured with waterfall_history := List.replicate 20 [] }

/-- The hypothesis of `add_waterfall_line_fifo` holds for a full history, and the
push keeps it at twenty lines. -/
theorem add_waterfall_line_fifo_witness :
    full_history_state.waterfall_history.length ≤ 20
      ∧ (full_history_state.add_waterfall_line configured).waterfall_history.length ≤ 20 :=
  ⟨by decide, (add_waterfall_line_fifo full_history_state (by decide)).1⟩

/-! ## Overwrite, peak hold and the guard -/

theorem getD_replicate_of_lt {α : Type} (n i : Nat) (a d : α) (h : i < n) :
    (List.replicate n a).getD i d = a := by
  rw [List.getD_eq_getElem?_getD, List.getElem?_replicate, if_pos h]
  rfl

/-- C3: stitching a step is a pure overwrite. For every state, averaged line and
mosaic index `g`: if bin `i` is the last bin of the line whose target is `g`,
the cell `g` holds the line's value at `i` after the bin loop, whatever the cell
held before; a cell that is no bin's target is unchanged; the outcome does not
depend on `avg_alpha`; and stitching a line with -40 at that bin and then a line
with -60 at that bin leaves the cell at -60. -/
theorem stitch_pure_overwrite (cfg : Config) (s : WidebandState) (freq : Nat)
    (avg : List ℚ) (g : Nat) :
    (∀ i, i < avg.length → stitch_target cfg s freq i = some g →
        (∀ j, i < j → j < avg.length → stitch_target cfg s freq j ≠ some g) →
        (stitch cfg s freq avg).full_spectrum[g]? = some (avg.getD i 0))
      ∧ ((∀ j, j < avg.length → stitch_target cfg s freq j ≠ some g) →
          (stitch cfg s freq avg).full_spectrum[g]? = s.full_spectrum[g]?)
      ∧ (∀ a, (stitch cfg { s with avg_alpha := a } freq avg).full_spectrum
          = (stitch cfg s freq avg).full_spectrum)
      ∧ (∀ avg2 i, i < avg.length → i < avg2.length → stitch_target cfg s freq i = some g →
          (∀ j, i < j → stitch_target cfg s freq j ≠ some g) →
          avg.getD i 0 = -40 → avg2.getD i 0 = -60 →
          (stitch cfg s freq avg).full_spectrum[g]? = some (-40)
            ∧ (stitch cfg (stitch cfg s freq avg) freq avg2).full_spectrum[g]? = some (-60)) := by
  refine ⟨?_, ?_, ?_, ?_⟩
  · intro i hi hit hlast
    exact stitch_last_write cfg s freq avg g i hi hit hlast
  · intro h
    exact stitch_fold_untouched cfg _ _ _ avg s g avg.length h
  · intro a
    show ((List.range avg.length).foldl _ { s with avg_alpha := a }).full_spectrum = _
    rw [stitch_fold_avg_alpha]
    rfl
  · intro avg2 i hi hi2 hit hlast h40 h60
    constructor
    · rw [← h40]
      exact stitch_last_write cfg s freq avg g i hi hit (fun j hij _ => hlast j hij)
    · rw [← h60]
      apply stitch_last_write cfg _ freq avg2 g i hi2
      · rw [stitch_target_after_stitch]
        exact hit
      · intro j hij _
        rw [stitch_target_after_stitch]
        exact hlast j hij

/-- A spectrum line of `FFT_SIZE` bins that all hold the value `v`. -/
def constant_line (v : ℚ) : List ℚ := List.replicate configured.FFT_SIZE v

theorem constant_line_length (v : ℚ) : (constant_line v).length = 8192 :=
  List.length_replicate _ _

theorem constant_line_getD (v : ℚ) (i : Nat) (h : i < 8192) : (constant_line v).getD i 0 = v :=
  getD_replicate_of_lt _ _ _ _ h

theorem stitch_target_none_above_7429 (s : WidebandState) (freq j : Nat) (h : 7429 < j) :
    stitch_target configured s freq j = none :=
  stitch_target_of_not_use_bin configured s freq j
    (fun hu => absurd ((use_bin_configured_iff j).mp hu).2 (by omega))

theorem stitch_target_80MHz_bin_7429 (s : WidebandState) (hs : s.start_freq = 80000000)
    (he : s.end_freq = 110000000) (hl : s.full_spectrum.length = 20384) :
    stitch_target configured s 80000000 7429 = some 12447 := by
  have h := stitch_target_configured_upper s hs he hl 80000000 6848 3333 5599
    (base_index_80MHz s hs he hl) (by norm_num) (by norm_num) (by norm_num) (by norm_num)
  norm_num at h
  exact h

/-- The configured step at 80 MHz: bin 7429 is the last bin whose target is the
cell 12447; a line of -40 and then a line of -60 leave that cell at -60. -/
theorem stitch_pure_overwrite_witness :
    (stitch configured (stitch configured (WidebandState.init configured) 80000000
        (constant_line (-40))) 80000000 (constant_line (-60))).full_spectrum[12447]?
      = some (-60 : ℚ) :=
  ((stitch_pure_overwrite configured (WidebandState.init configured) 80000000
        (constant_line (-40)) 12447).2.2.2 (constant_line (-60)) 7429
      (by rw [constant_line_length]; norm_num) (by rw [constant_line_length]; norm_num)
      (stitch_target_80MHz_bin_7429 _ init_configured_start_freq init_configured_end_freq
        init_configured_length)
      (fun j hij => by rw [stitch_target_none_above_7429 _ _ j hij]; exact Option.noConfusion)
      (constant_line_getD _ _ (by norm_num)) (constant_line_getD _ _ (by norm_num))).2

/-- C4: with peak hold enabled, a bin that writes the value `v` to the mosaic
index `g` sets the peak cell `g` to `v` when `v` is strictly greater than the old
peak and to the old peak minus 0.05 otherwise, so the cell rises only when the
written value exceeds it and does not increase otherwise; writing -40 into a
-120 cell and then -60 leaves -40.05. With peak hold disabled the stitch of a
step leaves the whole peak trace unchanged. -/
theorem peak_hold_update (cfg : Config) (s : WidebandState) :
    (s.peak_hold_enabled = true →
      ∀ (b : Nat) (m : ℚ) (t : Nat) (avg : List ℚ) (i g : Nat) (old : ℚ),
        bin_target cfg b m t i = some g → s.peak_spectrum[g]? = some old →
        (stitch_bin cfg b m t avg s i).peak_spectrum[g]?
            = some (if avg.getD i 0 > old then avg.getD i 0 else old - 0.05)
          ∧ (∀ new, (stitch_bin cfg b m t avg s i).peak_spectrum[g]? = some new →
              (old < new → old < avg.getD i 0) ∧ (¬ old < avg.getD i 0 → new ≤ old))
          ∧ (∀ avg2 : List ℚ, old = -120 → avg.getD i 0 = -40 → avg2.getD i 0 = -60 →
              (stitch_bin cfg b m t avg2 (stitch_bin cfg b m t avg s i) i).peak_spectrum[g]?
                = some (-40.05)))
      ∧ (s.peak_hold_enabled = false →
          ∀ (freq : Nat) (line : List ℚ), (stitch cfg s freq line).peak_spectrum = s.peak_spectrum) := by
  constructor
  · intro hen b m t avg i g old hit hold
    have hg : g < s.peak_spectrum.length := by
      rcases Nat.lt_or_ge g s.peak_spectrum.length with h | h
      · exact h
      · rw [List.getElem?_eq_none h] at hold
        exact Option.noConfusion hold
    have hgetD : s.peak_spectrum.getD g 0 = old := by
      rw [List.getD_eq_getElem?_getD, hold]
      rfl
    have hstep : ∀ (line : List ℚ) (s' : WidebandState) (old' : ℚ),
        s'.peak_hold_enabled = true → s'.peak_spectrum[g]? = some old' →
        (stitch_bin cfg b m t line s' i).peak_spectrum[g]?
          = some (if line.getD i 0 > old' then line.getD i 0 else old' - 0.05) := by
      intro line s' old' hen' hold'
      have hg' : g < s'.peak_spectrum.length := by
        rcases Nat.lt_or_ge g s'.peak_spectrum.length with h | h
        · exact h
        · rw [List.getElem?_eq_none h] at hold'
          exact Option.noConfusion hold'
      have hgetD' : s'.peak_spectrum.getD g 0 = old' := by
        rw [List.getD_eq_getElem?_getD, hold']
        rfl
      rw [stitch_bin_peak_spectrum, hit]
      simp only [hen', if_true, hgetD']
      rw [List.getElem?_set, if_pos rfl, if_pos hg']
    have h1 := hstep avg s old hen hold
    refine ⟨h1, ?_, ?_⟩
    · intro new hnew
      rw [h1] at hnew
      injection hnew with hnew
      by_cases hv : avg.getD i 0 > old
      · rw [if_pos hv] at hnew
        exact ⟨fun _ => hv, fun hnot => absurd hv hnot⟩
      · rw [if_neg hv] at hnew
        constructor
        · intro holdnew
          rw [← hnew] at holdnew
          have hlt : old - 0.05 < old := by norm_num
          exact absurd holdnew (not_lt.mpr hlt.le)
        · intro _
          rw [← hnew]
          norm_num
    · intro avg2 hold120 h40 h60
      have hen1 : (stitch_bin cfg b m t avg s i).peak_hold_enabled = true := by
        rw [stitch_bin_peak_hold_enabled]
        exact hen
      have h2 := hstep avg2 (stitch_bin cfg b m t avg s i) _ hen1 h1
      rw [h2, h40, h60, hold120]
      norm_num
  · intro hdis freq line
    exact (stitch_fold_peak_disabled cfg _ _ _ line s hdis line.length).1

/-- The constructed state with the peak-hold toggle switched on. -/
def peak_hold_state : WidebandState :=
  { WidebandState.init configured with peak_hold_enabled := true }

theorem init_configured_peak_cell (g : Nat) (hg : g < 20384) :
    (WidebandState.init configured).peak_spectrum[g]? = some (-120 : ℚ) := by
  have hn : total_bins configured (wrap64 (configured.START_FREQ_MHZ * 1000000))
      (wrap64 (configured.END_FREQ_MHZ * 1000000)) = 20384 := by decide
  show (List.replicate (total_bins configured (wrap64 (configured.START_FREQ_MHZ * 1000000))
      (wrap64 (configured.END_FREQ_MHZ * 1000000))) (-120 : ℚ))[g]? = _
  rw [hn, List.getElem?_replicate, if_pos hg]

theorem stitch_target_80MHz_bin_4096 (s : WidebandState) (hs : s.start_freq = 80000000)
    (he : s.end_freq = 110000000) (hl : s.full_spectrum.length = 20384) :
    stitch_target configured s 80000000 4096 = some 6848 := by
  have h := stitch_target_configured_upper s hs he hl 80000000 6848 0 0
    (base_index_80MHz s hs he hl) (by norm_num) (by norm_num) (by norm_num) (by norm_num)
  norm_num at h
  exact h

/-- With peak hold on, the centre bin of the configured step at 80 MHz writes the
cell 6848: a line of -40 and then a line of -60 leave its peak at -40.05. -/
theorem peak_hold_update_witness :
    (stitch_bin configured (base_index configured peak_hold_state 80000000)
        (bins_per_mhz configured peak_hold_state) peak_hold_state.full_spectrum.length
        (constant_line (-60))
        (stitch_bin configured (base_index configured peak_hold_state 80000000)
          (bins_per_mhz configured peak_hold_state) peak_hold_state.full_spectrum.length
          (constant_line (-40)) peak_hold_state 4096) 4096).peak_spectrum[6848]?
      = some (-40.05 : ℚ) :=
  ((peak_hold_update configured peak_hold_state).1 rfl
      (base_index configured peak_hold_state 80000000)
      (bins_per_mhz configured peak_hold_state) peak_hold_state.full_spectrum.length
      (constant_line (-40)) 4096 6848 (-120)
      (stitch_target_80MHz_bin_4096 peak_hold_state init_configured_start_freq
        init_configured_end_freq init_configured_length)
      (init_configured_peak_cell 6848 (by norm_num))).2.2
    (constant_line (-60)) rfl (constant_line_getD _ _ (by norm_num))
    (constant_line_getD _ _ (by norm_num))

theorem use_range_of_fits (cfg : Config)
    (hstep : cfg.STEP_SIZE_MHZ * 1000000 < 18446744073709551616) :
    (use_range cfg : ℚ) = ((cfg.STEP_SIZE_MHZ : ℚ) * 1000000) / 2 := by
  unfold use_range
  rw [wrap64_of_lt hstep]
  have h2 : cfg.STEP_SIZE_MHZ * 1000000 = 2 * (cfg.STEP_SIZE_MHZ * 500000) := by ring
  rw [h2, Nat.mul_div_cancel_left _ (by norm_num : 0 < 2)]
  push_cast
  ring

theorem retained_bins_configured :
    (Finset.range 8192).filter (fun i => use_bin configured i) = Finset.Icc 763 7429 := by
  ext i
  rw [Finset.mem_filter, Finset.mem_range, Finset.mem_Icc, use_bin_configured_iff]
  omega

/-! ## The step window and the base index -/

/-- C6 (the code at a failing input): in the configured mosaic the step tuned to
80 MHz, whose window under the linear mapping is the index range from
`base_index (80 MHz - 25 MHz) = 1275` to `base_index (80 MHz + 25 MHz) = 12421`,
writes bin 7429 to the cell 12447 and bin 763 to the cell 1249, both outside that
window; the cell 12447 really takes the line's value; and the adjacent step at
130 MHz writes its bin 794 to the same cell 12447. -/
theorem stitch_exceeds_step_window :
    stitch_target configured (WidebandState.init configured) 80000000 7429 = some 12447
      ∧ base_index configured (WidebandState.init configured) (80000000 + 25000000) = 12421
      ∧ stitch_target configured (WidebandState.init configured) 80000000 763 = some 1249
      ∧ base_index configured (WidebandState.init configured) (80000000 - 25000000) = 1275
      ∧ (∀ v : ℚ, (stitch configured (WidebandState.init configured) 80000000
            (constant_line v)).full_spectrum[12447]? = some v)
      ∧ stitch_target configured (WidebandState.init configured) (80000000 + 50000000) 794
          = some 12447 := by
  have hs := init_configured_start_freq
  have he := init_configured_end_freq
  have hl := init_configured_length
  have h7429 := stitch_target_80MHz_bin_7429 _ hs he hl
  refine ⟨h7429, ?_, ?_, ?_, ?_, ?_⟩
  · exact base_index_configured _ hs he hl _ 12421 (by norm_num) (by norm_num) (by norm_num)
      (by norm_num)
  · have h := stitch_target_configured_lower _ hs he hl 80000000 6848 3333 5599
      (base_index_80MHz _ hs he hl) (by norm_num) (by norm_num) (by norm_num) (by norm_num)
      (by norm_num) (by norm_num)
    norm_num at h
    exact h
  · exact base_index_configured _ hs he hl _ 1275 (by norm_num) (by norm_num) (by norm_num)
      (by norm_num)
  · intro v
    have h := stitch_last_write configured (WidebandState.init configured) 80000000
      (constant_line v) 12447 7429 (by rw [constant_line_length]; norm_num) h7429
      (fun j hij _ => by
        rw [stitch_target_none_above_7429 _ _ j hij]
        exact Option.noConfusion)
    rw [h, constant_line_getD _ _ (by norm_num)]
  · have hb : base_index configured (WidebandState.init configured) (80000000 + 50000000)
        = 17994 :=
      base_index_configured _ hs he hl _ 17994 (by norm_num) (by norm_num) (by norm_num)
        (by norm_num)
    have h := stitch_target_configured_lower _ hs he hl (80000000 + 50000000) 17994 3302 5547
      hb (by norm_num) (by norm_num) (by norm_num) (by norm_num) (by norm_num) (by norm_num)
    norm_num at h
    exact h

theorem freq_offset_of_fits (sr2 start freq : Nat) (hsf : start ≤ freq)
    (hsr : sr2 < 9223372036854775808) (hf : freq + sr2 < 9223372036854775808) :
    toInt64 freq - toInt64 (sub64 start sr2) = (freq : Int) - (start : Int) + (sr2 : Int) := by
  unfold toInt64 sub64 wrap64
  split_ifs <;> omega

/-- Without wrap-around, `base_index` is the floor of the position of `freq` in
the mosaic under the linear frequency-to-index mapping. -/
theorem base_index_eq_floor (cfg : Config) (s : WidebandState) (freq : Nat)
    (h1 : s.start_freq ≤ freq) (h2 : freq ≤ s.end_freq)
    (hfit : s.end_freq + cfg.SAMPLE_RATE < 9223372036854775808) :
    (base_index cfg s freq : Int)
      = ⌊(((freq : ℚ) - (s.start_freq : ℚ) + ((cfg.SAMPLE_RATE / 2 : Nat) : ℚ))
            / (((s.end_freq - s.start_freq + cfg.SAMPLE_RATE : Nat)) : ℚ))
          * (s.full_spectrum.length : ℚ)⌋
      ∧ 0 ≤ (((freq : ℚ) - (s.start_freq : ℚ) + ((cfg.SAMPLE_RATE / 2 : Nat) : ℚ))
            / (((s.end_freq - s.start_freq + cfg.SAMPLE_RATE : Nat)) : ℚ))
          * (s.full_spectrum.length : ℚ) := by
  have hdiv : cfg.SAMPLE_RATE / 2 ≤ cfg.SAMPLE_RATE := Nat.div_le_self _ _
  have hoff := freq_offset_of_fits (cfg.SAMPLE_RATE / 2) s.start_freq freq h1 (by omega)
    (by omega)
  have hext : extended_range cfg s = s.end_freq - s.start_freq + cfg.SAMPLE_RATE := by
    unfold extended_range
    rw [sub64_of_le (by omega) (by omega)]
    exact wrap64_of_lt (by omega)
  have hx : (0 : ℚ) ≤ (freq : ℚ) - (s.start_freq : ℚ) + ((cfg.SAMPLE_RATE / 2 : Nat) : ℚ) := by
    have : (s.start_freq : ℚ) ≤ (freq : ℚ) := by exact_mod_cast h1
    have : (0 : ℚ) ≤ ((cfg.SAMPLE_RATE / 2 : Nat) : ℚ) := Nat.cast_nonneg _
    linarith
  have hq : 0 ≤ (((freq : ℚ) - (s.start_freq : ℚ) + ((cfg.SAMPLE_RATE / 2 : Nat) : ℚ))
            / (((s.end_freq - s.start_freq + cfg.SAMPLE_RATE : Nat)) : ℚ))
          * (s.full_spectrum.length : ℚ) :=
    mul_nonneg (div_nonneg hx (Nat.cast_nonneg _)) (Nat.cast_nonneg _)
  refine ⟨?_, hq⟩
  unfold base_index array_start_freq
  simp only
  rw [hoff, hext]
  have hcast : ((((freq : Int) - (s.start_freq : Int) + ((cfg.SAMPLE_RATE / 2 : Nat) : Int)
      : Int)) : ℚ) = (freq : ℚ) - (s.start_freq : ℚ) + ((cfg.SAMPLE_RATE / 2 : Nat) : ℚ) := by
    rw [Int.cast_add, Int.cast_sub, Int.cast_natCast, Int.cast_natCast, Int.cast_natCast]
  rw [hcast]
  unfold truncate
  rw [if_pos hq]
  exact Int.toNat_of_nonneg (Int.floor_nonneg.mpr hq)

/-- C7: the base index is the floor of the linear frequency-to-index mapping
`(f - (start_freq - SAMPLE_RATE/2)) * mosaic_length / (band_width + SAMPLE_RATE)`
and is monotonic: for center frequencies `f1 < f2` within the band,
`base_index f1 ≤ base_index f2`, and both lie in `[0, mosaic_length)`. The
frequencies are taken within the signed 64-bit range, the sample rate positive
and the mosaic non-empty. -/
theorem base_index_monotone (cfg : Config) (s : WidebandState) (f1 f2 : Nat)
    (h1 : s.start_freq ≤ f1) (h12 : f1 < f2) (h2 : f2 ≤ s.end_freq)
    (hsr : 0 < cfg.SAMPLE_RATE) (hlen : 0 < s.full_spectrum.length)
    (hfit : s.end_freq + cfg.SAMPLE_RATE < 9223372036854775808) :
    base_index cfg s f1 ≤ base_index cfg s f2
      ∧ base_index cfg s f1 < s.full_spectrum.length
      ∧ base_index cfg s f2 < s.full_spectrum.length
      ∧ (∀ f, f = f1 ∨ f = f2 →
          (base_index cfg s f : Int)
            = ⌊(((f : ℚ) - ((s.start_freq : ℚ) - ((cfg.SAMPLE_RATE / 2 : Nat) : ℚ)))
                  * (s.full_spectrum.length : ℚ))
                / (((s.end_freq : ℚ) - (s.start_freq : ℚ)) + (cfg.SAMPLE_RATE : ℚ))⌋) := by
  have hse : s.start_freq ≤ s.end_freq := by omega
  have hextpos : (0 : ℚ) < ((s.end_freq - s.start_freq + cfg.SAMPLE_RATE : Nat) : ℚ) := by
    exact_mod_cast (by omega : 0 < s.end_freq - s.start_freq + cfg.SAMPLE_RATE)
  have hlenpos : (0 : ℚ) < (s.full_spectrum.length : ℚ) := by exact_mod_cast hlen
  obtain ⟨e1, _⟩ := base_index_eq_floor cfg s f1 h1 (by omega) hfit
  obtain ⟨e2, _⟩ := base_index_eq_floor cfg s f2 (by omega) h2 hfit
  have hf12 : (f1 : ℚ) < (f2 : ℚ) := by exact_mod_cast h12
  have hlt : ∀ f : Nat, f ≤ s.end_freq →
      (((f : ℚ) - (s.start_freq : ℚ) + ((cfg.SAMPLE_RATE / 2 : Nat) : ℚ))
          / (((s.end_freq - s.start_freq + cfg.SAMPLE_RATE : Nat)) : ℚ))
        * (s.full_spectrum.length : ℚ) < (s.full_spectrum.length : ℚ) := by
    intro f hf
    have hnum : (f : ℚ) - (s.start_freq : ℚ) + ((cfg.SAMPLE_RATE / 2 : Nat) : ℚ)
        < ((s.end_freq - s.start_freq + cfg.SAMPLE_RATE : Nat) : ℚ) := by
      have hh : cfg.SAMPLE_RATE / 2 < cfg.SAMPLE_RATE := Nat.div_lt_self hsr (by norm_num)
      have hn : f + cfg.SAMPLE_RATE / 2 < s.start_freq
          + (s.end_freq - s.start_freq + cfg.SAMPLE_RATE) := by omega
      have hq : ((f + cfg.SAMPLE_RATE / 2 : Nat) : ℚ)
          < ((s.start_freq + (s.end_freq - s.start_freq + cfg.SAMPLE_RATE) : Nat) : ℚ) := by
        exact_mod_cast hn
      push_cast at hq ⊢
      linarith
    have hratio := (div_lt_one hextpos).mpr hnum
    calc _ < 1 * (s.full_spectrum.length : ℚ) := mul_lt_mul_of_pos_right hratio hlenpos
      _ = _ := one_mul _
  have hmono : (((f1 : ℚ) - (s.start_freq : ℚ) + ((cfg.SAMPLE_RATE / 2 : Nat) : ℚ))
          / (((s.end_freq - s.start_freq + cfg.SAMPLE_RATE : Nat)) : ℚ))
        * (s.full_spectrum.length : ℚ)
      ≤ (((f2 : ℚ) - (s.start_freq : ℚ) + ((cfg.SAMPLE_RATE / 2 : Nat) : ℚ))
          / (((s.end_freq - s.start_freq + cfg.SAMPLE_RATE : Nat)) : ℚ))
        * (s.full_spectrum.length : ℚ) := by
    apply mul_le_mul_of_nonneg_right _ hlenpos.le
    apply div_le_div_of_nonneg_right _ hextpos.le
    linarith
  have hbound : ∀ f : Nat, s.start_freq ≤ f → f ≤ s.end_freq →
      base_index cfg s f < s.full_spectrum.length := by
    intro f hf1 hf2
    obtain ⟨e, _⟩ := base_index_eq_floor cfg s f hf1 hf2 hfit
    have hfl := Int.floor_lt.mpr (by exact_mod_cast hlt f hf2 :
      (((f : ℚ) - (s.start_freq : ℚ) + ((cfg.SAMPLE_RATE / 2 : Nat) : ℚ))
          / (((s.end_freq - s.start_freq + cfg.SAMPLE_RATE : Nat)) : ℚ))
        * (s.full_spectrum.length : ℚ) < ((s.full_spectrum.length : Int) : ℚ))
    rw [← e] at hfl
    exact_mod_cast hfl
  have hform : ∀ f : Nat, s.start_freq ≤ f → f ≤ s.end_freq →
      (base_index cfg s f : Int)
        = ⌊(((f : ℚ) - ((s.start_freq : ℚ) - ((cfg.SAMPLE_RATE / 2 : Nat) : ℚ)))
              * (s.full_spectrum.length : ℚ))
            / (((s.end_freq : ℚ) - (s.start_freq : ℚ)) + (cfg.SAMPLE_RATE : ℚ))⌋ := by
    intro f hf1 hf2
    obtain ⟨e, _⟩ := base_index_eq_floor cfg s f hf1 hf2 hfit
    rw [e]
    congr 1
    rw [Nat.cast_add, Nat.cast_sub hse]
    ring
  refine ⟨?_, hbound f1 h1 (by omega), hbound f2 (by omega) h2, ?_⟩
  · have := Int.floor_le_floor hmono
    rw [← e1, ← e2] at this
    exact_mod_cast this
  · rintro f (rfl | rfl)
    · exact hform _ h1 (by omega)
    · exact hform _ (by omega) h2

/-- In the configured mosaic the band edges 80 MHz and 110 MHz satisfy the
hypotheses of `base_index_monotone`. -/
theorem base_index_monotone_witness :
    base_index configured (WidebandState.init configured) 80000000
      ≤ base_index configured (WidebandState.init configured) 110000000 :=
  (base_index_monotone configured (WidebandState.init configured) 80000000 110000000
    (by rw [init_configured_start_freq]) (by norm_num)
    (by rw [init_configured_end_freq]) (by decide)
    (by rw [init_configured_length]; norm_num)
    (by rw [init_configured_end_freq]; decide)).1

/-! ## The sweep loop -/

theorem observe_running_of_no_stop (env : Environment) (sweep step : Nat) (s : WidebandState)
    (h : env.stop_requested sweep step = false) : observe_running env sweep step s = s := by
  unfold observe_running
  rw [h]
  cases s
  simp

theorem observe_running_frame (env : Environment) (sweep step : Nat) (s : WidebandState) :
    (observe_running env sweep step s).start_freq = s.start_freq
      ∧ (observe_running env sweep step s).end_freq = s.end_freq
      ∧ (observe_running env sweep step s).sweep_count = s.sweep_count
      ∧ (observe_running env sweep step s).num_chunks = s.num_chunks
      ∧ (observe_running env sweep step s).full_spectrum = s.full_spectrum :=
  ⟨rfl, rfl, rfl, rfl, rfl⟩

theorem step_body_of_tuned (cfg : Config) (env : Environment) (sweep c : Nat)
    (s : WidebandState) (f : Nat) (h : env.set_frequency sweep c f = 0) :
    step_body cfg env sweep c s f
      = some (stitch cfg { s with current_freq := f } f
          (averaged_line cfg env sweep c s.num_chunks)) := by
  unfold step_body
  rw [if_neg (by rw [h]; exact fun hne => hne rfl)]

theorem step_body_of_failed (cfg : Config) (env : Environment) (sweep c : Nat)
    (s : WidebandState) (f : Nat) (h : env.set_frequency sweep c f ≠ 0) :
    step_body cfg env sweep c s f = none := by
  unfold step_body
  rw [if_pos h]

theorem step_body_frame (cfg : Config) (env : Environment) (sweep c : Nat)
    (s s2 : WidebandState) (f : Nat) (h : step_body cfg env sweep c s f = some s2) :
    s2.start_freq = s.start_freq ∧ s2.end_freq = s.end_freq ∧ s2.running = s.running
      ∧ s2.sweep_count = s.sweep_count ∧ s2.num_chunks = s.num_chunks
      ∧ s2.full_spectrum.length = s.full_spectrum.length := by
  unfold step_body at h
  split_ifs at h
  injection h with h
  subst h
  obtain ⟨h1, h2, h3, -, h5, h6⟩ := stitch_frame cfg { s with current_freq := f } f
    (averaged_line cfg env sweep c s.num_chunks)
  exact ⟨h1, h2, h3, h5, h6, stitch_full_length cfg _ f _⟩

theorem step_loop_exit (cfg : Config) (env : Environment) (sweep fuel : Nat)
    (s : WidebandState) (f c : Nat) (h : ¬ f ≤ s.end_freq) :
    step_loop cfg env sweep (fuel + 1) s f c = ⟨s, [], true⟩ := by
  unfold step_loop
  rw [if_neg h]

theorem step_loop_step (cfg : Config) (env : Environment) (sweep fuel : Nat)
    (s : WidebandState) (f c : Nat) (h : f ≤ s.end_freq) (hrun : s.running = true)
    (hstop : env.stop_requested sweep (c + 1) = false)
    (htune : env.set_frequency sweep (c + 1) f = 0) :
    step_loop cfg env sweep (fuel + 1) s f c
      = ⟨(step_loop cfg env sweep fuel
            (stitch cfg { s with current_freq := f } f
              (averaged_line cfg env sweep (c + 1) s.num_chunks))
            (wrap64 (f + wrap64 (cfg.STEP_SIZE_MHZ * 1000000))) (c + 1)).state,
         f :: (step_loop cfg env sweep fuel
            (stitch cfg { s with current_freq := f } f
              (averaged_line cfg env sweep (c + 1) s.num_chunks))
            (wrap64 (f + wrap64 (cfg.STEP_SIZE_MHZ * 1000000))) (c + 1)).tuned,
         (step_loop cfg env sweep fuel
            (stitch cfg { s with current_freq := f } f
              (averaged_line cfg env sweep (c + 1) s.num_chunks))
            (wrap64 (f + wrap64 (cfg.STEP_SIZE_MHZ * 1000000))) (c + 1)).finished⟩ := by
  conv_lhs => unfold step_loop
  rw [if_pos h, observe_running_of_no_stop env sweep (c + 1) s hstop]
  dsimp only
  rw [if_pos hrun, step_body_of_tuned cfg env sweep (c + 1) s f htune]

theorem step_loop_tune_failed (cfg : Config) (env : Environment) (sweep fuel : Nat)
    (s : WidebandState) (f c : Nat) (h : f ≤ s.end_freq) (hrun : s.running = true)
    (hstop : env.stop_requested sweep (c + 1) = false)
    (htune : env.set_frequency sweep (c + 1) f ≠ 0) :
    step_loop cfg env sweep (fuel + 1) s f c = ⟨s, [], true⟩ := by
  conv_lhs => unfold step_loop
  rw [if_pos h, observe_running_of_no_stop env sweep (c + 1) s hstop]
  dsimp only
  rw [if_pos hrun, step_body_of_failed cfg env sweep (c + 1) s f htune]

theorem stitch_step_frame (cfg : Config) (s : WidebandState) (f : Nat) (line : List ℚ) :
    (stitch cfg { s with current_freq := f } f line).end_freq = s.end_freq
      ∧ (stitch cfg { s with current_freq := f } f line).running = s.running
      ∧ (stitch cfg { s with current_freq := f } f line).start_freq = s.start_freq
      ∧ (stitch cfg { s with current_freq := f } f line).sweep_count = s.sweep_count
      ∧ (stitch cfg { s with current_freq := f } f line).num_chunks = s.num_chunks
      ∧ (stitch cfg { s with current_freq := f } f line).full_spectrum.length
          = s.full_spectrum.length := by
  obtain ⟨h1, h2, h3, -, h5, h6⟩ := stitch_frame cfg { s with current_freq := f } f line
  exact ⟨h2, h3, h1, h5, h6, stitch_full_length cfg _ f line⟩

theorem map_range_succ_shift (f d m : Nat) :
    (List.range (m + 1 + 1)).map (fun k => f + k * d)
      = f :: (List.range (m + 1)).map (fun k => f + d + k * d) := by
  rw [List.range_succ_eq_map, List.map_cons, List.map_map]
  congr 1
  · simp
  · apply List.map_congr_left
    intro k _
    simp only [Function.comp, Nat.succ_eq_add_one]
    ring

/-- The step loop of a sweep in which no tune fails and no stop is requested,
started at `f` with the step `d` not wrapping: it is left after the steps
`f, f + d, ...` up to `end_freq`. -/
theorem step_loop_tuned (cfg : Config) (env : Environment) (sweep : Nat) (d : Nat)
    (hd : wrap64 (cfg.STEP_SIZE_MHZ * 1000000) = d) (hpos : 0 < d)
    (htune : ∀ k f, env.set_frequency sweep k f = 0)
    (hstop : ∀ k, env.stop_requested sweep k = false) :
    ∀ (m fuel : Nat) (s : WidebandState) (f c : Nat), s.running = true → f ≤ s.end_freq →
      s.end_freq + d < 18446744073709551616 → (s.end_freq - f) / d = m → m + 1 < fuel →
      (step_loop cfg env sweep fuel s f c).finished = true
        ∧ (step_loop cfg env sweep fuel s f c).tuned
            = (List.range (m + 1)).map (fun k => f + k * d)
        ∧ (step_loop cfg env sweep fuel s f c).state.running = true := by
  intro m
  induction m with
  | zero =>
    intro fuel s f c hrun hf hfit hm hfuel
    obtain ⟨fuel1, rfl⟩ : ∃ n, fuel = n + 1 := ⟨fuel - 1, by omega⟩
    obtain ⟨fuel2, rfl⟩ : ∃ n, fuel1 = n + 1 := ⟨fuel1 - 1, by omega⟩
    rw [step_loop_step cfg env sweep _ s f c hf hrun (hstop _) (htune _ _)]
    obtain ⟨he, hr, -⟩ := stitch_step_frame cfg s f
      (averaged_line cfg env sweep (c + 1) s.num_chunks)
    have hlt : s.end_freq - f < d := (Nat.div_eq_zero_iff hpos).mp hm
    rw [hd, wrap64_of_lt (by omega : f + d < 18446744073709551616)]
    rw [step_loop_exit cfg env sweep fuel2 _ (f + d) (c + 1) (by rw [he]; omega)]
    refine ⟨rfl, ?_, hr.trans hrun⟩
    show [f] = List.map (fun k => f + k * d) [0]
    simp
  | succ m ih =>
    intro fuel s f c hrun hf hfit hm hfuel
    obtain ⟨fuel1, rfl⟩ : ∃ n, fuel = n + 1 := ⟨fuel - 1, by omega⟩
    rw [step_loop_step cfg env sweep _ s f c hf hrun (hstop _) (htune _ _)]
    obtain ⟨he, hr, -⟩ := stitch_step_frame cfg s f
      (averaged_line cfg env sweep (c + 1) s.num_chunks)
    have hge : d ≤ s.end_freq - f := by
      by_contra hcon
      have : (s.end_freq - f) / d = 0 := (Nat.div_eq_zero_iff hpos).mpr (by omega)
      omega
    have hm' : (s.end_freq - (f + d)) / d = m := by
      have := Nat.div_eq_sub_div hpos hge
      rw [Nat.sub_add_eq]
      omega
    rw [hd, wrap64_of_lt (by omega : f + d < 18446744073709551616)]
    obtain ⟨h1, h2, h3⟩ := ih fuel1 _ (f + d) (c + 1) (hr.trans hrun) (by rw [he]; omega)
      (by rw [he]; exact hfit) (by rw [he]; exact hm') (by omega)
    refine ⟨h1, ?_, h3⟩
    show f :: _ = _
    rw [h2, map_range_succ_shift]

theorem sweep_tuned_eq (cfg : Config) (env : Environment) (fuel : Nat) (s : WidebandState) :
    (sweep cfg env fuel s).tuned
        = (step_loop cfg env (s.sweep_count + 1) fuel
            (sweep_reset { s with sweep_count := s.sweep_count + 1 }) s.start_freq 0).tuned
      ∧ (sweep cfg env fuel s).finished
        = (step_loop cfg env (s.sweep_count + 1) fuel
            (sweep_reset { s with sweep_count := s.sweep_count + 1 }) s.start_freq 0).finished := by
  unfold sweep
  dsimp only
  split_ifs with h
  · exact ⟨rfl, h.symm⟩
  · exact ⟨rfl, rfl⟩

theorem sweep_state_eq (cfg : Config) (env : Environment) (fuel : Nat) (s : WidebandState)
    (h : (sweep cfg env fuel s).finished = true) :
    (sweep cfg env fuel s).state
      = ((step_loop cfg env (s.sweep_count + 1) fuel
            (sweep_reset { s with sweep_count := s.sweep_count + 1 }) s.start_freq 0).state
          ).add_waterfall_line cfg := by
  have hf := (sweep_tuned_eq cfg env fuel s).2
  rw [h] at hf
  unfold sweep
  dsimp only
  split_ifs with h'
  · rfl
  · exact absurd hf.symm h'

/-- The steps of one sweep when no tune fails, no stop is requested and the
frequency counter does not wrap. -/
theorem sweep_tuned_of_ok (cfg : Config) (env : Environment) (fuel : Nat) (s : WidebandState)
    (hrun : s.running = true) (hse : s.start_freq ≤ s.end_freq)
    (hstep : 0 < cfg.STEP_SIZE_MHZ)
    (hfit : s.end_freq + cfg.STEP_SIZE_MHZ * 1000000 < 18446744073709551616)
    (htune : ∀ k f, env.set_frequency (s.sweep_count + 1) k f = 0)
    (hstop : ∀ k, env.stop_requested (s.sweep_count + 1) k = false)
    (hfuel : (s.end_freq - s.start_freq) / (cfg.STEP_SIZE_MHZ * 1000000) + 1 < fuel) :
    (sweep cfg env fuel s).finished = true
      ∧ (sweep cfg env fuel s).tuned
          = (List.range ((s.end_freq - s.start_freq) / (cfg.STEP_SIZE_MHZ * 1000000) + 1)).map
              (fun k => s.start_freq + k * (cfg.STEP_SIZE_MHZ * 1000000)) := by
  obtain ⟨ht, hf⟩ := sweep_tuned_eq cfg env fuel s
  have hd : wrap64 (cfg.STEP_SIZE_MHZ * 1000000) = cfg.STEP_SIZE_MHZ * 1000000 :=
    wrap64_of_lt (by omega)
  obtain ⟨h1, h2, -⟩ := step_loop_tuned cfg env (s.sweep_count + 1)
    (cfg.STEP_SIZE_MHZ * 1000000) hd (by omega) htune hstop
    ((s.end_freq - s.start_freq) / (cfg.STEP_SIZE_MHZ * 1000000)) fuel
    (sweep_reset { s with sweep_count := s.sweep_count + 1 }) s.start_freq 0
    hrun hse hfit rfl hfuel
  rw [ht, hf]
  exact ⟨h1, h2⟩

/-- An environment in which every receiver call succeeds, every transformed
capture is the zero line and the main thread never asks to stop. -/
def quiet_env : Environment :=
  ⟨[0, 0, 0, 0, 0, 0, 0], fun _ _ _ => 0, fun _ _ _ => 0, fun _ _ _ _ => 0, fun _ _ => false⟩

/-- C8 (as the code has it): for every `start_freq ≤ end_freq` and positive step
size with `end_freq + step` below `2^64`, when no tune fails and no stop is
requested, the step loop of one sweep is left (given enough fuel) and the
frequencies it tunes are exactly `start_freq + k * step` for
`k = 0, ..., (end_freq - start_freq) / step`, in increasing order, that is
`(end_freq - start_freq) / step + 1` steps. -/
theorem sweep_step_frequencies (cfg : Config) (env : Environment) (fuel : Nat)
    (s : WidebandState) (hrun : s.running = true) (hse : s.start_freq ≤ s.end_freq)
    (hstep : 0 < cfg.STEP_SIZE_MHZ)
    (hfit : s.end_freq + cfg.STEP_SIZE_MHZ * 1000000 < 18446744073709551616)
    (htune : ∀ k f, env.set_frequency (s.sweep_count + 1) k f = 0)
    (hstop : ∀ k, env.stop_requested (s.sweep_count + 1) k = false)
    (hfuel : (s.end_freq - s.start_freq) / (cfg.STEP_SIZE_MHZ * 1000000) + 1 < fuel) :
    (sweep cfg env fuel s).finished = true
      ∧ (sweep cfg env fuel s).tuned
          = (List.range ((s.end_freq - s.start_freq) / (cfg.STEP_SIZE_MHZ * 1000000) + 1)).map
              (fun k => s.start_freq + k * (cfg.STEP_SIZE_MHZ * 1000000))
      ∧ (sweep cfg env fuel s).tuned.length
          = (s.end_freq - s.start_freq) / (cfg.STEP_SIZE_MHZ * 1000000) + 1
      ∧ (∀ f, f ∈ (sweep cfg env fuel s).tuned ↔
          ∃ k, f = s.start_freq + k * (cfg.STEP_SIZE_MHZ * 1000000) ∧ f ≤ s.end_freq) := by
  obtain ⟨h1, h2⟩ := sweep_tuned_of_ok cfg env fuel s hrun hse hstep hfit htune hstop hfuel
  refine ⟨h1, h2, ?_, ?_⟩
  · rw [h2, List.length_map, List.length_range]
  · intro f
    rw [h2, List.mem_map]
    have hpos : 0 < cfg.STEP_SIZE_MHZ * 1000000 := by omega
    constructor
    · rintro ⟨k, hk, rfl⟩
      refine ⟨k, rfl, ?_⟩
      rw [List.mem_range] at hk
      have hk' : k ≤ (s.end_freq - s.start_freq) / (cfg.STEP_SIZE_MHZ * 1000000) := by omega
      have := (Nat.le_div_iff_mul_le hpos).mp hk'
      omega
    · rintro ⟨k, rfl, hk⟩
      refine ⟨k, ?_, rfl⟩
      rw [List.mem_range]
      have : k * (cfg.STEP_SIZE_MHZ * 1000000) ≤ s.end_freq - s.start_freq := by omega
      have := (Nat.le_div_iff_mul_le hpos).mpr this
      omega

/-- The configured sweep from the constructed state meets the hypotheses of
`sweep_step_frequencies`. -/
theorem sweep_step_frequencies_wrap_free_witness :
    (sweep configured quiet_env 3 (WidebandState.init configured)).finished = true :=
  (sweep_step_frequencies configured quiet_env 3 (WidebandState.init configured) rfl
    (by rw [init_configured_start_freq, init_configured_end_freq]; norm_num) (by decide)
    (by rw [init_configured_end_freq]; decide) (fun _ _ => rfl) (fun _ => rfl)
    (by rw [init_configured_start_freq, init_configured_end_freq]; decide)).1

/-- A state whose band sits at the top of the unsigned 64-bit range:
`start_freq = end_freq = 18446744073709 MHz`. -/
def top_of_range_state : WidebandState :=
  { WidebandState.init configured with
    start_freq := 18446744073709000000
    end_freq := 18446744073709000000 }

/-- At the top of the 64-bit range the step loop cannot be left with the single
step `18446744073709000000`: the counter wraps to 49448384 and the loop goes on. -/
theorem step_loop_wrap (sw : Nat) (s1 : WidebandState)
    (hend : s1.end_freq = 18446744073709000000) (hrun : s1.running = true) (fuel : Nat) :
    ¬ ((step_loop configured quiet_env sw fuel s1 18446744073709000000 0).finished = true
        ∧ (step_loop configured quiet_env sw fuel s1 18446744073709000000 0).tuned
            = [18446744073709000000]) := by
  have hle : 18446744073709000000 ≤ s1.end_freq := by rw [hend]
  have hnext : wrap64 (18446744073709000000 + wrap64 (configured.STEP_SIZE_MHZ * 1000000))
      = 49448384 := by decide
  rcases fuel with _ | _ | fuel
  · rintro ⟨hfin, -⟩
    exact Bool.noConfusion hfin
  · rw [step_loop_step configured quiet_env sw 0 s1 18446744073709000000 0 hle hrun rfl rfl]
    rintro ⟨hfin, -⟩
    exact Bool.noConfusion hfin
  · rw [step_loop_step configured quiet_env sw (fuel + 1) s1 18446744073709000000 0 hle hrun
      rfl rfl, hnext]
    obtain ⟨he, hr, -⟩ := stitch_step_frame configured s1 18446744073709000000
      (averaged_line configured quiet_env sw (0 + 1) s1.num_chunks)
    rw [step_loop_step configured quiet_env sw fuel _ 49448384 (0 + 1)
      (by rw [he, hend]; norm_num) (hr.trans hrun) rfl rfl]
    rintro ⟨-, htuned⟩
    simp at htuned

/-- C8 (as stated) fails where `freq += step` wraps: with
`start_freq = end_freq = 18446744073709000000` and the 50 MHz step the claim
predicts the single step `start_freq`, but after it the counter wraps to
49448384, which is again `≤ end_freq`, so whatever the fuel the loop has not
been left with exactly that step tuned. -/
theorem sweep_step_frequencies_wrap :
    ¬ ∃ fuel,
      (sweep configured quiet_env fuel top_of_range_state).finished = true
        ∧ (sweep configured quiet_env fuel top_of_range_state).tuned
            = (List.range ((top_of_range_state.end_freq - top_of_range_state.start_freq)
                  / (configured.STEP_SIZE_MHZ * 1000000) + 1)).map
                (fun k => top_of_range_state.start_freq
                  + k * (configured.STEP_SIZE_MHZ * 1000000)) := by
  rintro ⟨fuel, hfin, htuned⟩
  have hlist : (List.range ((top_of_range_state.end_freq - top_of_range_state.start_freq)
      / (configured.STEP_SIZE_MHZ * 1000000) + 1)).map
        (fun k => top_of_range_state.start_freq + k * (configured.STEP_SIZE_MHZ * 1000000))
      = [18446744073709000000] := by decide
  rw [hlist] at htuned
  rw [(sweep_tuned_eq _ _ _ _).2] at hfin
  rw [(sweep_tuned_eq _ _ _ _).1] at htuned
  exact step_loop_wrap _ _ rfl rfl fuel ⟨hfin, htuned⟩

/-- The configured band and step: a sweep with no tune failure and no stop
request consists of the single step at 80 MHz. -/
theorem configured_sweep_single (env : Environment) (fuel : Nat) (s : WidebandState)
    (hs : s.start_freq = 80000000) (he : s.end_freq = 110000000) (hrun : s.running = true)
    (htune : ∀ k f, env.set_frequency (s.sweep_count + 1) k f = 0)
    (hstop : ∀ k, env.stop_requested (s.sweep_count + 1) k = false) (hfuel : 1 < fuel) :
    (sweep configured env fuel s).finished = true
      ∧ (sweep configured env fuel s).tuned = [80000000]
      ∧ (sweep configured env fuel s).tuned.length = 1 := by
  have hn : (s.end_freq - s.start_freq) / (configured.STEP_SIZE_MHZ * 1000000) = 0 := by
    rw [hs, he]
    decide
  obtain ⟨h1, h2⟩ := sweep_tuned_of_ok configured env fuel s hrun (by rw [hs, he]; norm_num)
    (by decide) (by rw [he]; decide) htune hstop (by rw [hn]; exact hfuel)
  rw [hn, hs] at h2
  have h3 : (sweep configured env fuel s).tuned = [80000000] := by
    rw [h2]
    decide
  exact ⟨h1, h3, by rw [h3]; rfl⟩

/-- C9 (as the code has it): for the configured band 80-110 MHz with the 50 MHz
step, one sweep with no tune failure and no stop request executes exactly one
step, at 80 MHz: the next frequency, 130 MHz, exceeds `end_freq`. -/
theorem configured_sweep_one_step (env : Environment) (fuel : Nat) (s : WidebandState)
    (hs : s.start_freq = 80000000) (he : s.end_freq = 110000000) (hrun : s.running = true)
    (htune : ∀ k f, env.set_frequency (s.sweep_count + 1) k f = 0)
    (hstop : ∀ k, env.stop_requested (s.sweep_count + 1) k = false) (hfuel : 1 < fuel) :
    (sweep configured env fuel s).finished = true
      ∧ (sweep configured env fuel s).tuned = [80000000]
      ∧ (sweep configured env fuel s).tuned.length = 1 :=
  configured_sweep_single env fuel s hs he hrun htune hstop hfuel

/-- The constructed state and the quiet environment meet the hypotheses of
`configured_sweep_one_step`. -/
theorem configured_sweep_one_step_witness :
    (sweep configured quiet_env 3 (WidebandState.init configured)).tuned = [80000000] :=
  (configured_sweep_one_step quiet_env 3 (WidebandState.init configured)
    init_configured_start_freq init_configured_end_freq rfl (fun _ _ => rfl) (fun _ => rfl)
    (by decide)).2.1

/-- C9 (as stated) fails: the configured sweep from the constructed state, with
every receiver call succeeding and no stop request, leaves its step loop after
tuning 80 MHz only, so it does not execute two steps. -/
theorem configured_sweep_not_two_steps :
    (sweep configured quiet_env 3 (WidebandState.init configured)).finished = true
      ∧ (sweep configured quiet_env 3 (WidebandState.init configured)).tuned.length ≠ 2 := by
  obtain ⟨h1, h2⟩ := sweep_tuned_of_ok configured quiet_env 3 (WidebandState.init configured)
    rfl (by rw [init_configured_start_freq, init_configured_end_freq]; norm_num) (by decide)
    (by rw [init_configured_end_freq]; decide) (fun _ _ => rfl) (fun _ => rfl)
    (by rw [init_configured_start_freq, init_configured_end_freq]; decide)
  refine ⟨h1, ?_⟩
  rw [h2, List.length_map, List.length_range, init_configured_start_freq,
    init_configured_end_freq]
  decide

/-! ## Receiver failures -/

theorem step_loop_frame (cfg : Config) (env : Environment) (sweep : Nat)
    (hstop : ∀ k, env.stop_requested sweep k = false) :
    ∀ (fuel : Nat) (s : WidebandState) (f c : Nat),
      (step_loop cfg env sweep fuel s f c).state.start_freq = s.start_freq
        ∧ (step_loop cfg env sweep fuel s f c).state.end_freq = s.end_freq
        ∧ (step_loop cfg env sweep fuel s f c).state.running = s.running
        ∧ (step_loop cfg env sweep fuel s f c).state.sweep_count = s.sweep_count
        ∧ (step_loop cfg env sweep fuel s f c).state.full_spectrum.length
            = s.full_spectrum.length := by
  intro fuel
  induction fuel with
  | zero =>
    intro s f c
    exact ⟨rfl, rfl, rfl, rfl, rfl⟩
  | succ fuel ih =>
    intro s f c
    unfold step_loop
    by_cases hf : f ≤ s.end_freq
    · rw [if_pos hf, observe_running_of_no_stop env sweep (c + 1) s (hstop _)]
      dsimp only
      by_cases hr : s.running = true
      · rw [if_pos hr]
        cases hb : step_body cfg env sweep (c + 1) s f with
        | none => exact ⟨rfl, rfl, rfl, rfl, rfl⟩
        | some s2 =>
          obtain ⟨b1, b2, b3, b4, -, b6⟩ := step_body_frame cfg env sweep (c + 1) s s2 f hb
          obtain ⟨i1, i2, i3, i4, i5⟩ := ih s2
            (wrap64 (f + wrap64 (cfg.STEP_SIZE_MHZ * 1000000))) (c + 1)
          exact ⟨i1.trans b1, i2.trans b2, i3.trans b3, i4.trans b4, i5.trans b6⟩
      · rw [if_neg hr]
        exact ⟨rfl, rfl, rfl, rfl, rfl⟩
    · rw [if_neg hf]
      exact ⟨rfl, rfl, rfl, rfl, rfl⟩

theorem sweep_frame (cfg : Config) (env : Environment) (fuel : Nat) (s : WidebandState)
    (hstop : ∀ k, env.stop_requested (s.sweep_count + 1) k = false) :
    (sweep cfg env fuel s).state.start_freq = s.start_freq
      ∧ (sweep cfg env fuel s).state.end_freq = s.end_freq
      ∧ (sweep cfg env fuel s).state.running = s.running
      ∧ (sweep cfg env fuel s).state.sweep_count = s.sweep_count + 1 := by
  obtain ⟨h1, h2, h3, h4, -⟩ := step_loop_frame cfg env (s.sweep_count + 1) hstop fuel
    (sweep_reset { s with sweep_count := s.sweep_count + 1 }) s.start_freq 0
  unfold sweep
  dsimp only
  split_ifs
  · exact ⟨h1, h2, h3, h4⟩
  · exact ⟨h1, h2, h3, h4⟩

theorem sweep_loop_zero (cfg : Config) (env : Environment) (fuel : Nat) (s : WidebandState) :
    (sweep_loop cfg env fuel 0 s).state = s ∧ (sweep_loop cfg env fuel 0 s).tuned = [] :=
  ⟨rfl, rfl⟩

theorem sweep_loop_succ (cfg : Config) (env : Environment) (fuel sweeps : Nat)
    (s : WidebandState) (hstop : env.stop_requested (s.sweep_count + 1) 0 = false)
    (hrun : s.running = true) (hfin : (sweep cfg env fuel s).finished = true) :
    (sweep_loop cfg env fuel (sweeps + 1) s).state
        = (sweep_loop cfg env fuel sweeps (sweep cfg env fuel s).state).state
      ∧ (sweep_loop cfg env fuel (sweeps + 1) s).tuned
        = (sweep cfg env fuel s).tuned
            ++ (sweep_loop cfg env fuel sweeps (sweep cfg env fuel s).state).tuned
      ∧ (sweep_loop cfg env fuel (sweeps + 1) s).finished
        = (sweep_loop cfg env fuel sweeps (sweep cfg env fuel s).state).finished := by
  have e : sweep_loop cfg env fuel (sweeps + 1) s
      = ⟨(sweep_loop cfg env fuel sweeps (sweep cfg env fuel s).state).state,
         (sweep cfg env fuel s).tuned
           ++ (sweep_loop cfg env fuel sweeps (sweep cfg env fuel s).state).tuned,
         (sweep_loop cfg env fuel sweeps (sweep cfg env fuel s).state).finished⟩ := by
    conv_lhs => unfold sweep_loop
    rw [observe_running_of_no_stop env (s.sweep_count + 1) 0 s hstop]
    dsimp only
    rw [if_pos hrun, if_pos hfin]
  rw [e]
  exact ⟨rfl, rfl, rfl⟩

/-- An environment whose first `bladerf_set_frequency` call (sweep 1, step 1)
returns the error status -1; every other call succeeds. -/
def tune_fail_env : Environment :=
  ⟨[0, 0, 0, 0, 0, 0, 0], fun sweep step _ => if sweep = 1 ∧ step = 1 then -1 else 0,
    fun _ _ _ => 0, fun _ _ _ _ => -50, fun _ _ => false⟩

/-- An environment whose first `bladerf_sync_rx` call (sweep 1, step 1, chunk 0)
returns the error status -1; every other call succeeds, and every transformed
capture is the line of -50. -/
def rx_fail_env : Environment :=
  ⟨[0, 0, 0, 0, 0, 0, 0], fun _ _ _ => 0,
    fun sweep step chunk => if sweep = 1 ∧ step = 1 ∧ chunk = 0 then -1 else 0,
    fun _ _ _ _ => -50, fun _ _ => false⟩

theorem averaged_line_rx_fail :
    averaged_line configured rx_fail_env 1 1 1 = List.replicate configured.FFT_SIZE 0 := by
  unfold averaged_line
  have hc : chunk_loop configured rx_fail_env 1 1 (List.range (1 : Int).toNat)
      (List.replicate configured.FFT_SIZE 0) = List.replicate configured.FFT_SIZE 0 := by
    show chunk_loop configured rx_fail_env 1 1 [0] _ = _
    unfold chunk_loop
    rw [if_pos (by decide)]
  rw [hc, List.map_replicate]
  norm_num

theorem sweep_tune_fail :
    (sweep configured tune_fail_env 3 (WidebandState.init configured)).finished = true
      ∧ (sweep configured tune_fail_env 3 (WidebandState.init configured)).tuned = [] := by
  obtain ⟨ht, hf⟩ := sweep_tuned_eq configured tune_fail_env 3 (WidebandState.init configured)
  have e := step_loop_tune_failed configured tune_fail_env
    ((WidebandState.init configured).sweep_count + 1) 2
    (sweep_reset { WidebandState.init configured with
      sweep_count := (WidebandState.init configured).sweep_count + 1 })
    (WidebandState.init configured).start_freq 0 (by decide) rfl rfl (by decide)
  rw [ht, hf, e]
  exact ⟨rfl, rfl⟩

theorem sweep_thread_after_tune_fail :
    (bladerf_sweep_thread configured tune_fail_env 3 2 (WidebandState.init configured)).tuned
        = [80000000]
      ∧ (bladerf_sweep_thread configured tune_fail_env 3 2
          (WidebandState.init configured)).state.running = true := by
  have hstop1 : ∀ k, tune_fail_env.stop_requested
      ((WidebandState.init configured).sweep_count + 1) k = false := fun _ => rfl
  obtain ⟨f1, f2, f3, f4⟩ := sweep_frame configured tune_fail_env 3
    (WidebandState.init configured) hstop1
  have hrun1 : (sweep configured tune_fail_env 3 (WidebandState.init configured)).state.running
      = true := f3.trans rfl
  have hstop2 : ∀ k, tune_fail_env.stop_requested
      ((sweep configured tune_fail_env 3 (WidebandState.init configured)).state.sweep_count + 1) k
        = false := fun _ => rfl
  have htune2 : ∀ k f, tune_fail_env.set_frequency
      ((sweep configured tune_fail_env 3 (WidebandState.init configured)).state.sweep_count + 1)
      k f = 0 := by
    intro k f
    rw [f4]
    show (if (0 + 1 + 1 = 1 ∧ k = 1) then (-1 : Int) else 0) = 0
    rw [if_neg (by omega)]
  obtain ⟨g1, g2, -⟩ := configured_sweep_single tune_fail_env 3
    (sweep configured tune_fail_env 3 (WidebandState.init configured)).state
    (f1.trans init_configured_start_freq) (f2.trans init_configured_end_freq) hrun1 htune2
    hstop2 (by decide)
  obtain ⟨-, -, k3, -⟩ := sweep_frame configured tune_fail_env 3
    (sweep configured tune_fail_env 3 (WidebandState.init configured)).state hstop2
  have hthread : bladerf_sweep_thread configured tune_fail_env 3 2
      (WidebandState.init configured)
      = sweep_loop configured tune_fail_env 3 2 (WidebandState.init configured) := by
    unfold bladerf_sweep_thread
    rw [if_neg (by decide)]
  obtain ⟨a1, a2, -⟩ := sweep_loop_succ configured tune_fail_env 3 1
    (WidebandState.init configured) rfl rfl sweep_tune_fail.1
  obtain ⟨b1, b2, -⟩ := sweep_loop_succ configured tune_fail_env 3 0
    (sweep configured tune_fail_env 3 (WidebandState.init configured)).state (hstop2 0) hrun1 g1
  rw [hthread, a1, a2, b1, b2, sweep_tune_fail.2, g2, (sweep_loop_zero _ _ _ _).1,
    (sweep_loop_zero _ _ _ _).2, k3]
  exact ⟨rfl, hrun1⟩

theorem add_waterfall_line_full_spectrum (cfg : Config) (s : WidebandState) :
    (s.add_waterfall_line cfg).full_spectrum = s.full_spectrum := rfl

theorem sweep_reset_frame (s : WidebandState) :
    (sweep_reset s).start_freq = s.start_freq ∧ (sweep_reset s).end_freq = s.end_freq
      ∧ (sweep_reset s).running = s.running ∧ (sweep_reset s).num_chunks = s.num_chunks
      ∧ (sweep_reset s).full_spectrum.length = s.full_spectrum.length :=
  ⟨rfl, rfl, rfl, rfl, List.length_replicate _ _⟩

theorem sweep_reset_cell (s : WidebandState) (g : Nat) (hg : g < s.full_spectrum.length) :
    (sweep_reset s).full_spectrum[g]? = some (-80 : ℚ) := by
  show (List.replicate s.full_spectrum.length (-80 : ℚ))[g]? = _
  rw [List.getElem?_replicate, if_pos hg]

/-- The state a configured sweep reaches when its first capture fails: the step
at 80 MHz still stitches, and it stitches the untouched all-zero accumulator. -/
theorem sweep_rx_fail_state (s : WidebandState) (hs : s.start_freq = 80000000)
    (he : s.end_freq = 110000000) (hl : s.full_spectrum.length = 20384)
    (hrun : s.running = true) (hnum : s.num_chunks = 1) (hsc : s.sweep_count = 0) :
    (sweep configured rx_fail_env 3 s).state.full_spectrum[12447]? = some (0 : ℚ) := by
  have g := configured_sweep_single rx_fail_env 3 s hs he hrun (fun _ _ => rfl)
    (fun _ => rfl) (by decide)
  rw [sweep_state_eq _ _ _ _ g.1, add_waterfall_line_full_spectrum]
  generalize hS : sweep_reset { s with sweep_count := s.sweep_count + 1 } = S
  have hS1 : S.start_freq = 80000000 := by rw [← hS]; exact hs
  have hS2 : S.end_freq = 110000000 := by rw [← hS]; exact he
  have hS3 : S.running = true := by rw [← hS]; exact hrun
  have hS4 : S.num_chunks = 1 := by rw [← hS]; exact hnum
  have hS5 : S.full_spectrum.length = 20384 := by
    rw [← hS]
    exact (List.length_replicate _ _).trans hl
  rw [hsc, hs]
  have e1 := step_loop_step configured rx_fail_env (0 + 1) 2 S 80000000 0
    (by rw [hS2]; norm_num) hS3 rfl rfl
  have hnext : wrap64 (80000000 + wrap64 (configured.STEP_SIZE_MHZ * 1000000)) = 130000000 := by
    decide
  rw [hnext] at e1
  obtain ⟨k1, -, k3, -, -, k6⟩ := stitch_step_frame configured S 80000000
    (averaged_line configured rx_fail_env (0 + 1) (0 + 1) S.num_chunks)
  have e2 := step_loop_exit configured rx_fail_env (0 + 1) 1
    (stitch configured { S with current_freq := 80000000 } 80000000
      (averaged_line configured rx_fail_env (0 + 1) (0 + 1) S.num_chunks)) 130000000 (0 + 1)
    (by rw [k1, hS2]; norm_num)
  rw [e2] at e1
  rw [e1]
  show (stitch configured { S with current_freq := 80000000 } 80000000
      (averaged_line configured rx_fail_env (0 + 1) (0 + 1) S.num_chunks)).full_spectrum[12447]?
    = some (0 : ℚ)
  have hline : averaged_line configured rx_fail_env (0 + 1) (0 + 1) S.num_chunks
      = List.replicate configured.FFT_SIZE 0 := by
    rw [hS4]
    exact averaged_line_rx_fail
  rw [hline]
  have h := stitch_last_write configured { S with current_freq := 80000000 } 80000000
    (List.replicate configured.FFT_SIZE 0) 12447 7429
    (by rw [List.length_replicate]; decide)
    (stitch_target_80MHz_bin_7429 _ hS1 hS2 hS5)
    (fun j hij _ => by
      rw [stitch_target_none_above_7429 _ _ j hij]
      exact Option.noConfusion)
  rw [h, getD_replicate_of_lt _ _ _ _ (by decide)]

/-- An environment in which `bladerf_open` fails. -/
def open_fail_env : Environment :=
  ⟨[-1, 0, 0, 0, 0, 0, 0], fun _ _ _ => 0, fun _ _ _ => 0, fun _ _ _ _ => -50, fun _ _ => false⟩

/-- C10 (the code at failing inputs), from the constructed state with the
configured constants.
* When the first `bladerf_set_frequency` call fails, the sweep ends with no step
  tuned and `running` still true, and the thread goes on: its second sweep tunes
  80 MHz.
* When the first `bladerf_sync_rx` call fails, the step is not abandoned: 80 MHz
  counts as tuned, `running` stays true, and the cell 12447, which held -80 after
  the reset, is overwritten with 0, the value of the untouched accumulator.
* Only a failed set-up call (here `bladerf_open`) clears `running` and returns. -/
theorem receiver_failure_not_terminal :
    ((sweep configured tune_fail_env 3 (WidebandState.init configured)).finished = true
        ∧ (sweep configured tune_fail_env 3 (WidebandState.init configured)).tuned = []
        ∧ (sweep configured tune_fail_env 3 (WidebandState.init configured)).state.running
            = true)
      ∧ ((bladerf_sweep_thread configured tune_fail_env 3 2
            (WidebandState.init configured)).tuned = [80000000]
          ∧ (bladerf_sweep_thread configured tune_fail_env 3 2
              (WidebandState.init configured)).state.running = true)
      ∧ ((sweep configured rx_fail_env 3 (WidebandState.init configured)).tuned = [80000000]
          ∧ (sweep configured rx_fail_env 3 (WidebandState.init configured)).state.running
              = true
          ∧ (sweep_reset { WidebandState.init configured with sweep_count := 1 }
              ).full_spectrum[12447]? = some (-80 : ℚ)
          ∧ (sweep configured rx_fail_env 3 (WidebandState.init configured)
              ).state.full_spectrum[12447]? = some (0 : ℚ))
      ∧ ((bladerf_sweep_thread configured open_fail_env 3 2
            (WidebandState.init configured)).state.running = false
          ∧ (bladerf_sweep_thread configured open_fail_env 3 2
              (WidebandState.init configured)).tuned = []) := by
  refine ⟨⟨sweep_tune_fail.1, sweep_tune_fail.2, ?_⟩, sweep_thread_after_tune_fail,
    ⟨?_, ?_, ?_, ?_⟩, ?_⟩
  · exact (sweep_frame configured tune_fail_env 3 (WidebandState.init configured)
      (fun _ => rfl)).2.2.1.trans rfl
  · exact (configured_sweep_single rx_fail_env 3 (WidebandState.init configured)
      init_configured_start_freq init_configured_end_freq rfl (fun _ _ => rfl)
      (fun _ => rfl) (by decide)).2.1
  · exact (sweep_frame configured rx_fail_env 3 (WidebandState.init configured)
      (fun _ => rfl)).2.2.1.trans rfl
  · have hg : 12447 < (WidebandState.init configured).full_spectrum.length := by
      rw [init_configured_length]
      norm_num
    exact sweep_reset_cell _ 12447 hg
  · exact sweep_rx_fail_state (WidebandState.init configured) init_configured_start_freq
      init_configured_end_freq init_configured_length rfl rfl rfl
  · have h : bladerf_sweep_thread configured open_fail_env 3 2 (WidebandState.init configured)
        = ⟨{ WidebandState.init configured with running := false }, [], true⟩ := by
      unfold bladerf_sweep_thread
      rw [if_pos (by decide)]
    rw [h]
    exact ⟨rfl, rfl⟩

/-! ## The transform engine -/

section ShiftLemmas

variable (h N : Nat) (r : List ℚ)

/-- The state of `shifted` after the first `n` iterations of the shift loop. -/
theorem shift_fold_getElem? (hN : N = 2 * h) (n : Nat) (hn : n ≤ h) (j : Nat) :
    ((List.range n).foldl
        (fun shifted i => (shifted.set i (r.getD (i + h) 0)).set (i + h) (r.getD i 0))
        (List.replicate N (0 : ℚ)))[j]?
      = if j < n then some (r.getD (j + h) 0)
        else if h ≤ j ∧ j < h + n then some (r.getD (j - h) 0)
        else (List.replicate N (0 : ℚ))[j]? := by
  induction n with
  | zero =>
    rw [if_neg (Nat.not_lt_zero j), if_neg (by omega)]
    rfl
  | succ n ih =>
    have ih' := ih (by omega)
    have hlen : ∀ m, ((List.range m).foldl
        (fun shifted i => (shifted.set i (r.getD (i + h) 0)).set (i + h) (r.getD i 0))
        (List.replicate N (0 : ℚ))).length = N := by
      intro m
      induction m with
      | zero => exact List.length_replicate _ _
      | succ m ihm => rw [foldl_range_succ, List.length_set, List.length_set, ihm]
    have step : ∀ (L : List ℚ) (a b : ℚ), L.length = N →
        ((L.set n a).set (n + h) b)[j]?
          = if n + h = j then some b else if n = j then some a else L[j]? := by
      intro L a b hL
      rw [List.getElem?_set, List.length_set, List.getElem?_set, hL]
      by_cases h1 : n + h = j
      · rw [if_pos h1, if_pos h1, if_pos (by omega)]
      · rw [if_neg h1, if_neg h1]
        by_cases h2 : n = j
        · rw [if_pos h2, if_pos h2, if_pos (by omega)]
        · rw [if_neg h2, if_neg h2]
    rw [foldl_range_succ, step _ _ _ (hlen n), ih']
    by_cases h1 : n + h = j
    · rw [if_pos h1, if_neg (show ¬ j < n + 1 by omega),
        if_pos (show h ≤ j ∧ j < h + (n + 1) by omega)]
      congr 2
      omega
    · rw [if_neg h1]
      by_cases h2 : n = j
      · rw [if_pos h2, if_pos (show j < n + 1 by omega), h2]
      · rw [if_neg h2]
        by_cases h3 : j < n
        · rw [if_pos h3, if_pos (show j < n + 1 by omega)]
        · rw [if_neg h3, if_neg (show ¬ j < n + 1 by omega)]
          by_cases h4 : h ≤ j ∧ j < h + n
          · rw [if_pos h4, if_pos (show h ≤ j ∧ j < h + (n + 1) by omega)]
          · rw [if_neg h4, if_neg (show ¬ (h ≤ j ∧ j < h + (n + 1)) by omega)]

end ShiftLemmas

theorem fft_shift_length (cfg : Config) (r : List ℚ) :
    (fft_shift cfg r).length = cfg.FFT_SIZE := by
  unfold fft_shift
  dsimp only
  generalize cfg.FFT_SIZE / 2 = h
  generalize hm : (List.range h) = l
  clear hm
  suffices H : ∀ (init : List ℚ), (l.foldl
      (fun shifted i => (shifted.set i (r.getD (i + h) 0)).set (i + h) (r.getD i 0)) init).length
        = init.length by
    rw [H, List.length_replicate]
  induction l with
  | nil => intro init; rfl
  | cons a l ih =>
    intro init
    rw [List.foldl_cons, ih, List.length_set, List.length_set]

/-- For an even `FFT_SIZE` the shift is the rotation by half the length. -/
theorem fft_shift_getElem? (cfg : Config) (r : List ℚ) (heven : cfg.FFT_SIZE % 2 = 0)
    (j : Nat) (hj : j < cfg.FFT_SIZE) :
    (fft_shift cfg r)[j]? = some (r.getD ((j + cfg.FFT_SIZE / 2) % cfg.FFT_SIZE) 0) := by
  have hN : cfg.FFT_SIZE = 2 * (cfg.FFT_SIZE / 2) := by omega
  have key := shift_fold_getElem? (cfg.FFT_SIZE / 2) cfg.FFT_SIZE r hN (cfg.FFT_SIZE / 2)
    (Nat.le_refl _) j
  unfold fft_shift
  dsimp only
  rw [key]
  by_cases h1 : j < cfg.FFT_SIZE / 2
  · rw [if_pos h1, Nat.mod_eq_of_lt (by omega)]
  · rw [if_neg h1, if_pos (by omega)]
    congr 2
    have h2 : j + cfg.FFT_SIZE / 2 = (j - cfg.FFT_SIZE / 2) + cfg.FFT_SIZE := by omega
    rw [h2, Nat.add_mod_right, Nat.mod_eq_of_lt (by omega)]

theorem fft_shift_involutive (cfg : Config) (r : List ℚ) (heven : cfg.FFT_SIZE % 2 = 0)
    (hr : r.length = cfg.FFT_SIZE) : fft_shift cfg (fft_shift cfg r) = r := by
  apply List.ext_getElem?
  intro j
  by_cases hj : j < cfg.FFT_SIZE
  · rw [fft_shift_getElem? cfg _ heven j hj, List.getD_eq_getElem?_getD,
      fft_shift_getElem? cfg r heven _ (Nat.mod_lt _ (by omega))]
    have hidx : ((j + cfg.FFT_SIZE / 2) % cfg.FFT_SIZE + cfg.FFT_SIZE / 2) % cfg.FFT_SIZE = j := by
      by_cases h1 : j < cfg.FFT_SIZE / 2
      · rw [Nat.mod_eq_of_lt (by omega : j + cfg.FFT_SIZE / 2 < cfg.FFT_SIZE)]
        have h2 : j + cfg.FFT_SIZE / 2 + cfg.FFT_SIZE / 2 = j + cfg.FFT_SIZE := by omega
        rw [h2, Nat.add_mod_right, Nat.mod_eq_of_lt hj]
      · have h2 : j + cfg.FFT_SIZE / 2 = (j - cfg.FFT_SIZE / 2) + cfg.FFT_SIZE := by omega
        have e1 : (j + cfg.FFT_SIZE / 2) % cfg.FFT_SIZE = j - cfg.FFT_SIZE / 2 := by
          rw [h2, Nat.add_mod_right]
          exact Nat.mod_eq_of_lt (by omega)
        have h3 : j - cfg.FFT_SIZE / 2 + cfg.FFT_SIZE / 2 = j := by omega
        rw [e1, h3]
        exact Nat.mod_eq_of_lt hj
    rw [hidx]
    show some (r.getD j 0) = r[j]?
    rw [List.getD_eq_getElem?_getD, List.getElem?_eq_getElem (by omega)]
    rfl
  · rw [List.getElem?_eq_none (by rw [fft_shift_length]; omega),
      List.getElem?_eq_none (by omega)]

theorem unshifted_db_length (cfg : Config) (num : Numerics) (window : List ℚ)
    (iq_data : List Int) : (unshifted_db cfg num window iq_data).length = cfg.FFT_SIZE := by
  unfold unshifted_db
  dsimp only
  rw [List.length_map, List.length_range]

theorem configured_fft_size_even : configured.FFT_SIZE % 2 = 0 := by decide

/-- C11: `process_fft` returns a line of `FFT_SIZE` values that is the half-swap
of the unshifted dB array: for every `i < FFT_SIZE` the returned value at `i` is
the unshifted value at `(i + FFT_SIZE/2) mod FFT_SIZE`; the raw DC bin 0 lands
at index `FFT_SIZE/2 = 4096`; and the half-swap applied twice to an array of
`FFT_SIZE` values gives back the array. -/
theorem process_fft_half_swap (num : Numerics) (window : List ℚ) (iq_data : List Int) :
    (process_fft configured num window iq_data).length = configured.FFT_SIZE
      ∧ (∀ i, i < configured.FFT_SIZE →
          (process_fft configured num window iq_data)[i]?
            = some ((unshifted_db configured num window iq_data).getD
                ((i + configured.FFT_SIZE / 2) % configured.FFT_SIZE) 0))
      ∧ (process_fft configured num window iq_data)[4096]?
          = (unshifted_db configured num window iq_data)[0]?
      ∧ (∀ r : List ℚ, r.length = configured.FFT_SIZE →
          fft_shift configured (fft_shift configured r) = r) := by
  refine ⟨fft_shift_length _ _, ?_, ?_, ?_⟩
  · intro i hi
    exact fft_shift_getElem? configured _ configured_fft_size_even i hi
  · have h := fft_shift_getElem? configured (unshifted_db configured num window iq_data)
      configured_fft_size_even 4096 (by decide)
    have hidx : (4096 + configured.FFT_SIZE / 2) % configured.FFT_SIZE = 0 := by decide
    rw [hidx] at h
    have hlen : 0 < (unshifted_db configured num window iq_data).length := by
      rw [unshifted_db_length]
      decide
    show (fft_shift configured (unshifted_db configured num window iq_data))[4096]? = _
    rw [h, List.getD_eq_getElem?_getD, List.getElem?_eq_getElem hlen]
    rfl
  · intro r hr
    exact fft_shift_involutive configured r configured_fft_size_even hr

/-- The half-swap applied twice to the line of 8192 ones gives the line back. -/
theorem process_fft_half_swap_witness :
    fft_shift configured (fft_shift configured (constant_line 1)) = constant_line 1 :=
  (process_fft_half_swap ⟨fun l => l, fun x => x⟩ [] []).2.2.2 (constant_line 1)
    (constant_line_length 1)

theorem window_power_sum_eq_sum (cfg : Config) (window : List ℚ) :
    window_power_sum cfg window
      = ((List.range cfg.FFT_SIZE).map (fun k => window.getD k 0 ^ 2)).sum := by
  unfold window_power_sum
  rw [List.sum_eq_foldl, List.foldl_map]
  congr 1
  funext acc k
  rw [pow_two]

theorem fft_input_zero (cfg : Config) (window : List ℚ) (iq_data : List Int)
    (hzero : ∀ x ∈ iq_data, x = 0) :
    fft_input cfg window iq_data = List.replicate cfg.FFT_SIZE ((0, 0) : ℚ × ℚ) := by
  have hget : ∀ j, iq_data.getD j 0 = 0 := by
    intro j
    rw [List.getD_eq_getElem?_getD]
    rcases Nat.lt_or_ge j iq_data.length with hj | hj
    · rw [List.getElem?_eq_getElem hj]
      exact hzero _ (List.getElem_mem _)
    · rw [List.getElem?_eq_none hj]
      rfl
  unfold fft_input
  have hconst : (List.range cfg.FFT_SIZE).map (fun i =>
      ((iq_data.getD (2 * i) 0 : ℚ) / 2048 * window.getD i 0,
        (iq_data.getD (2 * i + 1) 0 : ℚ) / 2048 * window.getD i 0))
      = (List.range cfg.FFT_SIZE).map (fun _ => ((0, 0) : ℚ × ℚ)) := by
    apply List.map_congr_left
    intro i _
    rw [hget, hget]
    norm_num
  dsimp only
  rw [hconst, List.map_const', List.length_range]

/-- The unshifted dB array of the all-zero capture, when the transform of the
zero vector is zero: every bin holds the floored minimum after the window
correction. -/
theorem unshifted_db_zero (cfg : Config) (num : Numerics) (window : List ℚ)
    (iq_data : List Int) (hzero : ∀ x ∈ iq_data, x = 0)
    (hfft : num.fftw_execute (List.replicate cfg.FFT_SIZE (0, 0))
              = List.replicate cfg.FFT_SIZE (0, 0))
    (j : Nat) (hj : j < cfg.FFT_SIZE) :
    (unshifted_db cfg num window iq_data).getD j 0
      = 10 * num.log10f 1e-20
          - 10 * num.log10f (((List.range cfg.FFT_SIZE).map
              (fun k => window.getD k 0 ^ 2)).sum / (cfg.FFT_SIZE : ℚ)) := by
  unfold unshifted_db
  dsimp only
  rw [fft_input_zero cfg window iq_data hzero, hfft, window_power_sum_eq_sum,
    List.getD_eq_getElem?_getD, List.getElem?_map, List.getElem?_range hj]
  have hcell : (List.replicate cfg.FFT_SIZE ((0, 0) : ℚ × ℚ)).getD j (0, 0) = (0, 0) :=
    getD_replicate_of_lt _ _ _ _ hj
  show 10 * num.log10f
        ((((List.replicate cfg.FFT_SIZE ((0, 0) : ℚ × ℚ)).getD j (0, 0)).1
            * ((List.replicate cfg.FFT_SIZE ((0, 0) : ℚ × ℚ)).getD j (0, 0)).1
          + ((List.replicate cfg.FFT_SIZE ((0, 0) : ℚ × ℚ)).getD j (0, 0)).2
            * ((List.replicate cfg.FFT_SIZE ((0, 0) : ℚ × ℚ)).getD j (0, 0)).2)
          / ((cfg.FFT_SIZE : ℚ) * (cfg.FFT_SIZE : ℚ)) + 1e-20) - _ = _
  rw [hcell]
  norm_num

/-- C12: for a capture whose `2 * FFT_SIZE` samples are all zero, the forward
transform of the zero vector being zero, every bin of the line `process_fft`
returns holds the same value `10 * log10(ε) - 10 * log10(mean(window²))` with
`ε = 1e-20`: the floored minimum after the window-loss correction. -/
theorem process_fft_zero_capture (num : Numerics) (window : List ℚ) (iq_data : List Int)
    (hzero : ∀ x ∈ iq_data, x = 0)
    (hfft : num.fftw_execute (List.replicate configured.FFT_SIZE (0, 0))
              = List.replicate configured.FFT_SIZE (0, 0)) :
    ∀ i, i < configured.FFT_SIZE →
      (process_fft configured num window iq_data)[i]?
        = some (10 * num.log10f 1e-20
            - 10 * num.log10f (((List.range configured.FFT_SIZE).map
                (fun k => window.getD k 0 ^ 2)).sum / (configured.FFT_SIZE : ℚ))) := by
  intro i hi
  show (fft_shift configured (unshifted_db configured num window iq_data))[i]? = _
  rw [fft_shift_getElem? configured _ configured_fft_size_even i hi,
    unshifted_db_zero configured num window iq_data hzero hfft _
      (Nat.mod_lt _ (by decide))]

/-- A stand-in for the numeric library in which the transform and the logarithm
are both the identity; the transform of the zero vector is then zero. -/
def identity_numerics : Numerics := ⟨fun l => l, fun x => x⟩

/-- The all-zero capture of `2 * FFT_SIZE` samples meets the hypotheses of
`process_fft_zero_capture`. -/
theorem process_fft_zero_capture_witness :
    (process_fft configured identity_numerics []
        (List.replicate (2 * configured.FFT_SIZE) 0))[0]?
      = some (10 * identity_numerics.log10f 1e-20
          - 10 * identity_numerics.log10f (((List.range configured.FFT_SIZE).map
              (fun k => ([] : List ℚ).getD k 0 ^ 2)).sum / (configured.FFT_SIZE : ℚ))) :=
  process_fft_zero_capture identity_numerics [] (List.replicate (2 * configured.FFT_SIZE) 0)
    (fun _ hx => List.eq_of_mem_replicate hx) rfl 0 (by decide)

/-! ## Shape of the shared arrays -/

theorem stitch_bin_peak_length (cfg : Config) (b : Nat) (m : ℚ) (t : Nat) (avg : List ℚ)
    (s : WidebandState) (i : Nat) :
    (stitch_bin cfg b m t avg s i).peak_spectrum.length = s.peak_spectrum.length := by
  rw [stitch_bin_peak_spectrum]
  split
  · split_ifs
    · rw [List.length_set]
    · rw [List.length_set]
    · rfl
  · rfl

theorem stitch_peak_length (cfg : Config) (s : WidebandState) (freq : Nat) (avg : List ℚ) :
    (stitch cfg s freq avg).peak_spectrum.length = s.peak_spectrum.length := by
  unfold stitch
  dsimp only
  generalize avg.length = n
  induction n with
  | zero => rfl
  | succ n ih => rw [foldl_range_succ, stitch_bin_peak_length, ih]

theorem step_body_shape (cfg : Config) (env : Environment) (sweep c : Nat)
    (s s2 : WidebandState) (f : Nat) (h : step_body cfg env sweep c s f = some s2) :
    s2.full_spectrum.length = s.full_spectrum.length
      ∧ s2.peak_spectrum.length = s.peak_spectrum.length
      ∧ s2.waterfall_history = s.waterfall_history := by
  unfold step_body at h
  split_ifs at h
  injection h with h
  subst h
  exact ⟨stitch_full_length cfg _ f _, stitch_peak_length cfg _ f _,
    (stitch_frame cfg { s with current_freq := f } f _).2.2.2.1⟩

/-- Whatever the receiver returns and whenever a stop is requested, the step
loop keeps the lengths of the mosaic and of the peak trace and leaves the
history alone. -/
theorem step_loop_shape (cfg : Config) (env : Environment) (sweep : Nat) :
    ∀ (fuel : Nat) (s : WidebandState) (f c : Nat),
      (step_loop cfg env sweep fuel s f c).state.full_spectrum.length = s.full_spectrum.length
        ∧ (step_loop cfg env sweep fuel s f c).state.peak_spectrum.length
            = s.peak_spectrum.length
        ∧ (step_loop cfg env sweep fuel s f c).state.waterfall_history
            = s.waterfall_history := by
  intro fuel
  induction fuel with
  | zero =>
    intro s f c
    exact ⟨rfl, rfl, rfl⟩
  | succ fuel ih =>
    intro s f c
    unfold step_loop
    by_cases hf : f ≤ s.end_freq
    · rw [if_pos hf]
      dsimp only
      by_cases hr : (observe_running env sweep (c + 1) s).running = true
      · rw [if_pos hr]
        cases hb : step_body cfg env sweep (c + 1) (observe_running env sweep (c + 1) s) f with
        | none => exact ⟨rfl, rfl, rfl⟩
        | some s2 =>
          obtain ⟨b1, b2, b3⟩ := step_body_shape cfg env sweep (c + 1) _ s2 f hb
          obtain ⟨i1, i2, i3⟩ := ih s2
            (wrap64 (f + wrap64 (cfg.STEP_SIZE_MHZ * 1000000))) (c + 1)
          exact ⟨i1.trans b1, i2.trans b2, i3.trans b3⟩
      · rw [if_neg hr]
        exact ⟨rfl, rfl, rfl⟩
    · rw [if_neg hf]
      exact ⟨rfl, rfl, rfl⟩

theorem sweep_reset_shape (s : WidebandState) :
    (sweep_reset s).full_spectrum.length = s.full_spectrum.length
      ∧ (sweep_reset s).peak_spectrum.length = s.peak_spectrum.length
      ∧ (sweep_reset s).waterfall_history = [] :=
  ⟨List.length_replicate _ _, List.length_replicate _ _, rfl⟩

/-- The state in which the step loop of a sweep stops, before the history push. -/
theorem sweep_pre_push_shape (cfg : Config) (env : Environment) (fuel : Nat)
    (s : WidebandState) :
    (step_loop cfg env (s.sweep_count + 1) fuel
        (sweep_reset { s with sweep_count := s.sweep_count + 1 }) s.start_freq 0
      ).state.full_spectrum.length = s.full_spectrum.length
      ∧ (step_loop cfg env (s.sweep_count + 1) fuel
          (sweep_reset { s with sweep_count := s.sweep_count + 1 }) s.start_freq 0
        ).state.peak_spectrum.length = s.peak_spectrum.length
      ∧ (step_loop cfg env (s.sweep_count + 1) fuel
          (sweep_reset { s with sweep_count := s.sweep_count + 1 }) s.start_freq 0
        ).state.waterfall_history = [] := by
  obtain ⟨h1, h2, h3⟩ := step_loop_shape cfg env (s.sweep_count + 1) fuel
    (sweep_reset { s with sweep_count := s.sweep_count + 1 }) s.start_freq 0
  obtain ⟨r1, r2, r3⟩ := sweep_reset_shape { s with sweep_count := s.sweep_count + 1 }
  exact ⟨h1.trans r1, h2.trans r2, h3.trans r3⟩

theorem sweep_state_cases (cfg : Config) (env : Environment) (fuel : Nat) (s : WidebandState) :
    ((sweep cfg env fuel s).finished = true
        ∧ (sweep cfg env fuel s).state
            = ((step_loop cfg env (s.sweep_count + 1) fuel
                (sweep_reset { s with sweep_count := s.sweep_count + 1 }) s.start_freq 0
              ).state).add_waterfall_line cfg)
      ∨ ((sweep cfg env fuel s).finished = false
        ∧ (sweep cfg env fuel s).state
            = (step_loop cfg env (s.sweep_count + 1) fuel
                (sweep_reset { s with sweep_count := s.sweep_count + 1 }) s.start_freq 0
              ).state) := by
  unfold sweep
  dsimp only
  split_ifs with h
  · exact Or.inl ⟨rfl, rfl⟩
  · exact Or.inr ⟨by simpa using h, rfl⟩

theorem sweep_shape (cfg : Config) (env : Environment) (fuel : Nat) (s : WidebandState) :
    (sweep cfg env fuel s).state.full_spectrum.length = s.full_spectrum.length
      ∧ (sweep cfg env fuel s).state.peak_spectrum.length = s.peak_spectrum.length := by
  obtain ⟨p1, p2, -⟩ := sweep_pre_push_shape cfg env fuel s
  rcases sweep_state_cases cfg env fuel s with ⟨-, e⟩ | ⟨-, e⟩
  · rw [e]
    exact ⟨p1, p2⟩
  · rw [e]
    exact ⟨p1, p2⟩

/-- A configured sweep ends with the history holding exactly the mosaic; a sweep
cut short by the fuel is still inside its step loop, with an empty history. -/
theorem sweep_history (env : Environment) (fuel : Nat) (s : WidebandState) :
    ((sweep configured env fuel s).finished = true →
        (sweep configured env fuel s).state.waterfall_history
          = [(sweep configured env fuel s).state.full_spectrum])
      ∧ ((sweep configured env fuel s).finished = false →
          (sweep configured env fuel s).state.waterfall_history = []) := by
  obtain ⟨-, -, p3⟩ := sweep_pre_push_shape configured env fuel s
  rcases sweep_state_cases configured env fuel s with ⟨hf, e⟩ | ⟨hf, e⟩
  · refine ⟨fun _ => ?_, fun h => absurd (hf.symm.trans h) (by decide)⟩
    rw [e]
    unfold WidebandState.add_waterfall_line
    dsimp only
    rw [p3]
    rfl
  · refine ⟨fun h => absurd (hf.symm.trans h) (by decide), fun _ => ?_⟩
    rw [e]
    exact p3

theorem sweep_loop_shape (env : Environment) (fuel : Nat) :
    ∀ (sweeps : Nat) (s : WidebandState),
      (sweep_loop configured env fuel sweeps s).state.full_spectrum.length
          = s.full_spectrum.length
        ∧ (sweep_loop configured env fuel sweeps s).state.peak_spectrum.length
            = s.peak_spectrum.length
        ∧ (s.waterfall_history.length ≤ 1 →
            (sweep_loop configured env fuel sweeps s).state.waterfall_history.length ≤ 1) := by
  intro sweeps
  induction sweeps with
  | zero =>
    intro s
    exact ⟨rfl, rfl, fun h => h⟩
  | succ sweeps ih =>
    intro s
    unfold sweep_loop
    dsimp only
    by_cases hr : (observe_running env (s.sweep_count + 1) 0 s).running = true
    · rw [if_pos hr]
      obtain ⟨q1, q2⟩ := sweep_shape configured env fuel
        (observe_running env (s.sweep_count + 1) 0 s)
      obtain ⟨k1, k2⟩ := sweep_history env fuel (observe_running env (s.sweep_count + 1) 0 s)
      by_cases hfin : (sweep configured env fuel
          (observe_running env (s.sweep_count + 1) 0 s)).finished = true
      · rw [if_pos hfin]
        obtain ⟨i1, i2, i3⟩ := ih (sweep configured env fuel
          (observe_running env (s.sweep_count + 1) 0 s)).state
        refine ⟨i1.trans q1, i2.trans q2, fun _ => i3 ?_⟩
        rw [k1 hfin]
        exact Nat.le_refl 1
      · rw [if_neg hfin]
        refine ⟨q1, q2, fun _ => ?_⟩
        rw [k2 (by simpa using hfin)]
        exact Nat.zero_le 1
    · rw [if_neg hr]
      exact ⟨rfl, rfl, fun h => h⟩

theorem sweep_loop_lengths (cfg : Config) (env : Environment) (fuel : Nat) :
    ∀ (sweeps : Nat) (s : WidebandState),
      (sweep_loop cfg env fuel sweeps s).state.full_spectrum.length = s.full_spectrum.length
        ∧ (sweep_loop cfg env fuel sweeps s).state.peak_spectrum.length
            = s.peak_spectrum.length := by
  intro sweeps
  induction sweeps with
  | zero =>
    intro s
    exact ⟨rfl, rfl⟩
  | succ sweeps ih =>
    intro s
    unfold sweep_loop
    dsimp only
    by_cases hr : (observe_running env (s.sweep_count + 1) 0 s).running = true
    · rw [if_pos hr]
      obtain ⟨q1, q2⟩ := sweep_shape cfg env fuel (observe_running env (s.sweep_count + 1) 0 s)
      by_cases hfin : (sweep cfg env fuel
          (observe_running env (s.sweep_count + 1) 0 s)).finished = true
      · rw [if_pos hfin]
        obtain ⟨i1, i2⟩ := ih (sweep cfg env fuel
          (observe_running env (s.sweep_count + 1) 0 s)).state
        exact ⟨i1.trans q1, i2.trans q2⟩
      · rw [if_neg hfin]
        exact ⟨q1, q2⟩
    · rw [if_neg hr]
      exact ⟨rfl, rfl⟩

theorem sweep_thread_lengths (cfg : Config) (env : Environment) (fuel sweeps : Nat)
    (s : WidebandState) :
    (bladerf_sweep_thread cfg env fuel sweeps s).state.full_spectrum.length
        = s.full_spectrum.length
      ∧ (bladerf_sweep_thread cfg env fuel sweeps s).state.peak_spectrum.length
        = s.peak_spectrum.length := by
  unfold bladerf_sweep_thread
  split_ifs
  · exact ⟨rfl, rfl⟩
  · exact sweep_loop_lengths cfg env fuel sweeps s

theorem mem_replicate_eq {α : Type} {n : Nat} {a x : α} (h : x ∈ List.replicate n a) : x = a :=
  List.eq_of_mem_replicate h

/-- C13: the sweep-start reset sets every mosaic cell to -80 and every peak-trace
cell to -120 and empties the history, whatever they held; and the lengths of the
mosaic and of the peak trace are kept by the reset, by the stitch of a step and
by the history push, so that however long the sweep thread runs they are the
lengths fixed at construction. -/
theorem reset_values_and_fixed_lengths (cfg : Config) (env : Environment)
    (s : WidebandState) :
    ((∀ x ∈ (sweep_reset s).full_spectrum, x = -80)
        ∧ (∀ x ∈ (sweep_reset s).peak_spectrum, x = -120)
        ∧ (sweep_reset s).waterfall_history = [])
      ∧ ((sweep_reset s).full_spectrum.length = s.full_spectrum.length
          ∧ (sweep_reset s).peak_spectrum.length = s.peak_spectrum.length)
      ∧ (∀ (freq : Nat) (line : List ℚ),
          (stitch cfg s freq line).full_spectrum.length = s.full_spectrum.length
            ∧ (stitch cfg s freq line).peak_spectrum.length = s.peak_spectrum.length)
      ∧ ((s.add_waterfall_line cfg).full_spectrum.length = s.full_spectrum.length
          ∧ (s.add_waterfall_line cfg).peak_spectrum.length = s.peak_spectrum.length)
      ∧ (∀ fuel sweeps : Nat,
          (bladerf_sweep_thread cfg env fuel sweeps (WidebandState.init cfg)
            ).state.full_spectrum.length = (WidebandState.init cfg).full_spectrum.length
            ∧ (bladerf_sweep_thread cfg env fuel sweeps (WidebandState.init cfg)
                ).state.peak_spectrum.length
              = (WidebandState.init cfg).peak_spectrum.length) := by
  refine ⟨⟨fun x hx => mem_replicate_eq hx, fun x hx => mem_replicate_eq hx, rfl⟩,
    ⟨(sweep_reset_shape s).1, (sweep_reset_shape s).2.1⟩, ?_, ⟨rfl, rfl⟩, ?_⟩
  · intro freq line
    exact ⟨stitch_full_length cfg s freq line, stitch_peak_length cfg s freq line⟩
  · intro fuel sweeps
    exact sweep_thread_lengths cfg env fuel sweeps (WidebandState.init cfg)

theorem sweep_thread_history (env : Environment) (fuel sweeps : Nat) :
    (bladerf_sweep_thread configured env fuel sweeps (WidebandState.init configured)
      ).state.waterfall_history.length ≤ 1 := by
  unfold bladerf_sweep_thread
  split_ifs
  · exact Nat.zero_le 1
  · exact (sweep_loop_shape env fuel sweeps (WidebandState.init configured)).2.2
      (Nat.zero_le 1)

/-- C15: in the sweep loop the history never holds more than one entry. A sweep
that runs to its end leaves the history equal to the one-element sequence made
of the current mosaic; the history is empty when `add_waterfall_line` is called,
so the test `size > 20` of its eviction branch fails; and however long the sweep
thread runs from the constructed state, the history has at most one entry. -/
theorem sweep_history_single (env : Environment) (fuel : Nat) (s : WidebandState) :
    ((sweep configured env fuel s).finished = true →
        (sweep configured env fuel s).state.waterfall_history
          = [(sweep configured env fuel s).state.full_spectrum])
      ∧ (step_loop configured env (s.sweep_count + 1) fuel
          (sweep_reset { s with sweep_count := s.sweep_count + 1 }) s.start_freq 0
        ).state.waterfall_history = []
      ∧ ¬ (((step_loop configured env (s.sweep_count + 1) fuel
              (sweep_reset { s with sweep_count := s.sweep_count + 1 }) s.start_freq 0
            ).state.waterfall_history
            ++ [(step_loop configured env (s.sweep_count + 1) fuel
              (sweep_reset { s with sweep_count := s.sweep_count + 1 }) s.start_freq 0
            ).state.full_spectrum]).length > configured.WATERFALL_HISTORY)
      ∧ (∀ sweeps : Nat,
          (bladerf_sweep_thread configured env fuel sweeps (WidebandState.init configured)
            ).state.waterfall_history.length ≤ 1) := by
  obtain ⟨-, -, p3⟩ := sweep_pre_push_shape configured env fuel s
  refine ⟨(sweep_history env fuel s).1, p3, ?_, fun sweeps => sweep_thread_history env fuel sweeps⟩
  rw [p3, List.nil_append, List.length_singleton]
  decide

/-- The configured sweep from the constructed state runs to its end and leaves
exactly its mosaic in the history. -/
theorem sweep_history_single_witness :
    (sweep configured quiet_env 3 (WidebandState.init configured)).state.waterfall_history
      = [(sweep configured quiet_env 3 (WidebandState.init configured)).state.full_spectrum] :=
  (sweep_history_single quiet_env 3 (WidebandState.init configured)).1
    (configured_sweep_single quiet_env 3 (WidebandState.init configured)
      init_configured_start_freq init_configured_end_freq rfl (fun _ _ => rfl) (fun _ => rfl)
      (by decide)).1

/-! ## Coverage of the band -/

/-- The target of every bin of the configured step at 80 MHz, in closed form. -/
theorem stitch_target_80MHz_closed (s : WidebandState) (hs : s.start_freq = 80000000)
    (he : s.end_freq = 110000000) (hl : s.full_spectrum.length = 20384) (i : Nat) :
    stitch_target configured s 80000000 i
      = if 763 ≤ i ∧ i ≤ 7429 then
          (if 4096 ≤ i then some (6848 + (i - 4096) * 42 / 25)
           else some (6848 - (4096 - i) * 42 / 25))
        else none := by
  by_cases hr : 763 ≤ i ∧ i ≤ 7429
  · rw [if_pos hr]
    by_cases hu : 4096 ≤ i
    · rw [if_pos hu]
      have h := stitch_target_configured_upper s hs he hl 80000000 6848 (i - 4096)
        ((i - 4096) * 42 / 25) (base_index_80MHz s hs he hl) (by omega) (by omega) (by omega)
        (by omega)
      have hi : 4096 + (i - 4096) = i := by omega
      rw [hi] at h
      exact h
    · rw [if_neg hu]
      have h := stitch_target_configured_lower s hs he hl 80000000 6848 (4096 - i)
        ((4096 - i) * 42 / 25) (base_index_80MHz s hs he hl) (by omega) (by omega) (by omega)
        (by omega) (by omega) (by omega)
      have hi : 4096 - (4096 - i) = i := by omega
      rw [hi] at h
      exact h
  · rw [if_neg hr]
    exact stitch_target_of_not_use_bin configured s 80000000 i
      (fun h => hr ((use_bin_configured_iff i).mp h))

theorem stitch_target_80MHz_injective (s : WidebandState) (hs : s.start_freq = 80000000)
    (he : s.end_freq = 110000000) (hl : s.full_spectrum.length = 20384) (i j g : Nat)
    (hij : i < j) (hi : stitch_target configured s 80000000 i = some g) :
    stitch_target configured s 80000000 j ≠ some g := by
  rw [stitch_target_80MHz_closed s hs he hl] at hi ⊢
  intro hj
  split_ifs at hi hj <;> injection hi with hi <;> injection hj with hj <;> omega

theorem stitch_target_80MHz_gaps (s : WidebandState) (hs : s.start_freq = 80000000)
    (he : s.end_freq = 110000000) (hl : s.full_spectrum.length = 20384) (i g : Nat)
    (hg : g = 6850 ∨ 12448 ≤ g) : stitch_target configured s 80000000 i ≠ some g := by
  rw [stitch_target_80MHz_closed s hs he hl]
  intro h
  split_ifs at h <;> injection h with h <;> omega

theorem stitch_target_80MHz_lt (s : WidebandState) (hs : s.start_freq = 80000000)
    (he : s.end_freq = 110000000) (hl : s.full_spectrum.length = 20384) (i g : Nat)
    (h : stitch_target configured s 80000000 i = some g) : i < 8192 := by
  rw [stitch_target_80MHz_closed s hs he hl] at h
  split_ifs at h <;> omega

theorem accumulate_length (avg fft : List ℚ) : (accumulate avg fft).length = avg.length := by
  unfold accumulate
  generalize List.range fft.length = l
  induction l generalizing avg with
  | nil => rfl
  | cons a l ih => rw [List.foldl_cons, ih, List.length_set]

theorem chunk_loop_length (cfg : Config) (env : Environment) (sweep step : Nat) :
    ∀ (chunks : List Nat) (avg : List ℚ),
      (chunk_loop cfg env sweep step chunks avg).length = avg.length := by
  intro chunks
  induction chunks with
  | nil => intro avg; rfl
  | cons c chunks ih =>
    intro avg
    unfold chunk_loop
    split_ifs
    · rfl
    · rw [ih, accumulate_length]

theorem averaged_line_length (cfg : Config) (env : Environment) (sweep step : Nat)
    (num_chunks : Int) : (averaged_line cfg env sweep step num_chunks).length = cfg.FFT_SIZE := by
  unfold averaged_line
  rw [List.length_map, chunk_loop_length, List.length_replicate]

/-- The mosaic a configured sweep ends with when the tune succeeds and no stop is
requested: the reset mosaic with the single step at 80 MHz stitched into it. -/
theorem configured_sweep_mosaic (env : Environment) (fuel : Nat) (s : WidebandState)
    (hs : s.start_freq = 80000000) (he : s.end_freq = 110000000) (hrun : s.running = true)
    (htune : ∀ k f, env.set_frequency (s.sweep_count + 1) k f = 0)
    (hstop : ∀ k, env.stop_requested (s.sweep_count + 1) k = false) (hfuel : 1 < fuel) :
    (sweep configured env fuel s).state.full_spectrum
      = (stitch configured
          { sweep_reset { s with sweep_count := s.sweep_count + 1 } with
            current_freq := 80000000 }
          80000000
          (averaged_line configured env (s.sweep_count + 1) (0 + 1)
            (sweep_reset { s with sweep_count := s.sweep_count + 1 }).num_chunks)
        ).full_spectrum := by
  have g := configured_sweep_single env fuel s hs he hrun htune hstop hfuel
  rw [sweep_state_eq _ _ _ _ g.1, add_waterfall_line_full_spectrum]
  generalize hS : sweep_reset { s with sweep_count := s.sweep_count + 1 } = S
  have hS2 : S.end_freq = 110000000 := by rw [← hS]; exact he
  have hS3 : S.running = true := by rw [← hS]; exact hrun
  obtain ⟨fuel2, rfl⟩ : ∃ n, fuel = n + 1 + 1 := ⟨fuel - 2, by omega⟩
  rw [hs]
  have e1 := step_loop_step configured env (s.sweep_count + 1) (fuel2 + 1) S 80000000 0
    (by rw [hS2]; norm_num) hS3 (hstop _) (htune _ _)
  have hnext : wrap64 (80000000 + wrap64 (configured.STEP_SIZE_MHZ * 1000000)) = 130000000 := by
    decide
  rw [hnext] at e1
  obtain ⟨k1, -⟩ := stitch_step_frame configured S 80000000
    (averaged_line configured env (s.sweep_count + 1) (0 + 1) S.num_chunks)
  have e2 := step_loop_exit configured env (s.sweep_count + 1) fuel2
    (stitch configured { S with current_freq := 80000000 } 80000000
      (averaged_line configured env (s.sweep_count + 1) (0 + 1) S.num_chunks)) 130000000 (0 + 1)
    (by rw [k1, hS2]; norm_num)
  rw [e2] at e1
  rw [e1]

theorem stitch_untouched (cfg : Config) (s : WidebandState) (freq : Nat) (avg : List ℚ)
    (g : Nat) (h : ∀ j, j < avg.length → stitch_target cfg s freq j ≠ some g) :
    (stitch cfg s freq avg).full_spectrum[g]? = s.full_spectrum[g]? :=
  stitch_fold_untouched cfg _ _ _ avg s g avg.length h

theorem base_index_band_edges (s : WidebandState) (hs : s.start_freq = 80000000)
    (he : s.end_freq = 110000000) (hl : s.full_spectrum.length = 20384) :
    base_index configured s s.start_freq = 6848 ∧ base_index configured s s.end_freq = 13535 := by
  rw [hs, he]
  exact ⟨base_index_80MHz s hs he hl,
    base_index_configured s hs he hl 110000000 13535 (by norm_num) (by norm_num) (by norm_num)
      (by norm_num)⟩

/-- The mosaic after one configured sweep, cell by cell: the target of a retained
bin of the step at 80 MHz holds that bin's averaged value, every other cell
holds the reset value -80. -/
theorem configured_sweep_cells (env : Environment) (fuel : Nat) (s : WidebandState)
    (hs : s.start_freq = 80000000) (he : s.end_freq = 110000000)
    (hl : s.full_spectrum.length = 20384) (hrun : s.running = true)
    (htune : ∀ k f, env.set_frequency (s.sweep_count + 1) k f = 0)
    (hstop : ∀ k, env.stop_requested (s.sweep_count + 1) k = false) (hfuel : 1 < fuel) :
    (∀ i g, stitch_target configured s 80000000 i = some g →
        (sweep configured env fuel s).state.full_spectrum[g]?
          = some ((averaged_line configured env (s.sweep_count + 1) 1 s.num_chunks).getD i 0))
      ∧ (∀ g, g < 20384 → (∀ i, stitch_target configured s 80000000 i ≠ some g) →
          (sweep configured env fuel s).state.full_spectrum[g]? = some (-80 : ℚ)) := by
  have hm := configured_sweep_mosaic env fuel s hs he hrun htune hstop hfuel
  generalize hT : ({ sweep_reset { s with sweep_count := s.sweep_count + 1 } with
      current_freq := 80000000 } : WidebandState) = T at hm
  have hT1 : T.start_freq = 80000000 := by rw [← hT]; exact hs
  have hT2 : T.end_freq = 110000000 := by rw [← hT]; exact he
  have hT3 : T.full_spectrum.length = 20384 := by
    rw [← hT]
    exact (List.length_replicate _ _).trans hl
  have hT4 : ∀ g, g < 20384 → T.full_spectrum[g]? = some (-80 : ℚ) := by
    intro g hg
    rw [← hT]
    exact sweep_reset_cell _ g (by rw [← hl] at hg; exact hg)
  have tt : ∀ i, stitch_target configured T 80000000 i = stitch_target configured s 80000000 i := by
    intro i
    rw [stitch_target_80MHz_closed T hT1 hT2 hT3, stitch_target_80MHz_closed s hs he hl]
  constructor
  · intro i g hit
    rw [hm]
    exact stitch_last_write configured T 80000000 _ g i
      (by rw [averaged_line_length]; exact stitch_target_80MHz_lt s hs he hl i g hit)
      ((tt i).trans hit)
      (fun j hij _ => stitch_target_80MHz_injective T hT1 hT2 hT3 i j g hij ((tt i).trans hit))
  · intro g hg hno
    rw [hm, stitch_untouched configured T 80000000 _ g
      (fun j _ => by rw [tt j]; exact hno j)]
    exact hT4 g hg

/-- C14 (as the code has it): after one complete sweep of the configured band
with no tune failure and no stop request, the single step at 80 MHz has run; a
mosaic cell that is the target of one of its retained bins holds that bin's
averaged value, and every other cell still holds the reset floor -80. Between
`base_index(start_freq) = 6848` and `base_index(end_freq) = 13535` there are
cells that are no bin's target, the cell 6850 and every cell from 12448 on, so
the stitched image is not continuous over the band. -/
theorem sweep_mosaic_coverage (env : Environment) (fuel : Nat) (s : WidebandState)
    (hs : s.start_freq = 80000000) (he : s.end_freq = 110000000)
    (hl : s.full_spectrum.length = 20384) (hrun : s.running = true)
    (htune : ∀ k f, env.set_frequency (s.sweep_count + 1) k f = 0)
    (hstop : ∀ k, env.stop_requested (s.sweep_count + 1) k = false) (hfuel : 1 < fuel) :
    ((sweep configured env fuel s).finished = true
        ∧ (sweep configured env fuel s).tuned = [80000000])
      ∧ (∀ i g, stitch_target configured s 80000000 i = some g →
          (sweep configured env fuel s).state.full_spectrum[g]?
            = some ((averaged_line configured env (s.sweep_count + 1) 1 s.num_chunks).getD i 0))
      ∧ (∀ g, g < 20384 → (∀ i, stitch_target configured s 80000000 i ≠ some g) →
          (sweep configured env fuel s).state.full_spectrum[g]? = some (-80 : ℚ))
      ∧ (base_index configured s s.start_freq = 6848
          ∧ base_index configured s s.end_freq = 13535)
      ∧ (∀ g, g = 6850 ∨ 12448 ≤ g → ∀ i, stitch_target configured s 80000000 i ≠ some g) := by
  obtain ⟨c1, c2⟩ := configured_sweep_cells env fuel s hs he hl hrun htune hstop hfuel
  obtain ⟨g1, g2, -⟩ := configured_sweep_single env fuel s hs he hrun htune hstop hfuel
  exact ⟨⟨g1, g2⟩, c1, c2, base_index_band_edges s hs he hl,
    fun g hg i => stitch_target_80MHz_gaps s hs he hl i g hg⟩

/-- The constructed state and the quiet environment meet the hypotheses of
`sweep_mosaic_coverage`: after the sweep the cell 13000 still holds -80. -/
theorem sweep_mosaic_coverage_witness :
    (sweep configured quiet_env 3 (WidebandState.init configured)).state.full_spectrum[13000]?
      = some (-80 : ℚ) :=
  (sweep_mosaic_coverage quiet_env 3 (WidebandState.init configured)
      init_configured_start_freq init_configured_end_freq init_configured_length rfl
      (fun _ _ => rfl) (fun _ => rfl) (by decide)).2.2.1 13000 (by norm_num)
    (fun i => stitch_target_80MHz_gaps _ init_configured_start_freq init_configured_end_freq
      init_configured_length i 13000 (Or.inr (by norm_num)))

/-- C14 (as stated) fails: in the configured sweep from the constructed state,
run to its end with every receiver call succeeding, the only step is the one at
80 MHz; the cells 6850 and 13000 lie between `base_index(start_freq) = 6848` and
`base_index(end_freq) = 13535`, no bin of the step has either as target, and
both still hold -80 after the sweep. -/
theorem sweep_mosaic_not_continuous :
    ((sweep configured quiet_env 3 (WidebandState.init configured)).finished = true
        ∧ (sweep configured quiet_env 3 (WidebandState.init configured)).tuned = [80000000])
      ∧ ¬ (∀ g,
          base_index configured (WidebandState.init configured)
              (WidebandState.init configured).start_freq ≤ g →
          g ≤ base_index configured (WidebandState.init configured)
              (WidebandState.init configured).end_freq →
          ∃ f ∈ (sweep configured quiet_env 3 (WidebandState.init configured)).tuned,
            ∃ i, stitch_target configured (WidebandState.init configured) f i = some g)
      ∧ (sweep configured quiet_env 3 (WidebandState.init configured)).state.full_spectrum[13000]?
          = some (-80 : ℚ)
      ∧ (sweep configured quiet_env 3 (WidebandState.init configured)).state.full_spectrum[6850]?
          = some (-80 : ℚ) := by
  have hs := init_configured_start_freq
  have he := init_configured_end_freq
  have hl := init_configured_length
  obtain ⟨g1, g2, -⟩ := configured_sweep_single quiet_env 3 (WidebandState.init configured)
    hs he rfl (fun _ _ => rfl) (fun _ => rfl) (by decide)
  obtain ⟨b1, b2⟩ := base_index_band_edges (WidebandState.init configured) hs he hl
  have hgap : ∀ g, g = 6850 ∨ 12448 ≤ g →
      ∀ i, stitch_target configured (WidebandState.init configured) 80000000 i ≠ some g :=
    fun g hg i => stitch_target_80MHz_gaps _ hs he hl i g hg
  obtain ⟨-, c2⟩ := configured_sweep_cells quiet_env 3 (WidebandState.init configured) hs he hl
    rfl (fun _ _ => rfl) (fun _ => rfl) (by decide)
  refine ⟨⟨g1, g2⟩, ?_, ?_, ?_⟩
  · intro hall
    obtain ⟨f, hf, i, hi⟩ := hall 13000 (by rw [b1]; norm_num) (by rw [b2]; norm_num)
    rw [g2, List.mem_singleton] at hf
    rw [hf] at hi
    exact hgap 13000 (Or.inr (by norm_num)) i hi
  · exact c2 13000 (by norm_num) (hgap 13000 (Or.inr (by norm_num)))
  · exact c2 6850 (by norm_num) (hgap 6850 (Or.inl rfl))

/-! ## The guard of the stitch loop -/

/-- Bin `i` is retained by the stitch loop when its iteration is not skipped by
the `continue`: some execution of the loop body for bin `i` (for some base
index, scale, mosaic length, line and state) changes the state. -/
def bin_retained (cfg : Config) (i : Nat) : Prop :=
  ∃ (b : Nat) (m : ℚ) (t : Nat) (avg : List ℚ) (s : WidebandState),
    stitch_bin cfg b m t avg s i ≠ s

theorem guard_iff_formula (cfg : Config)
    (hstep : cfg.STEP_SIZE_MHZ * 1000000 < 18446744073709551616) (i : Nat) :
    ¬ |freq_offset_hz cfg i| > (use_range cfg : ℚ) ↔
      |((i : ℚ) - (cfg.FFT_SIZE : ℚ) / 2) * ((cfg.SAMPLE_RATE : ℚ) / (cfg.FFT_SIZE : ℚ))|
        ≤ ((cfg.STEP_SIZE_MHZ : ℚ) * 1000000) / 2 := by
  unfold freq_offset_hz hz_per_bin
  rw [use_range_of_fits cfg hstep, gt_iff_lt, not_lt]

/-- The iteration of a bin that fails the guard is the `continue`: nothing changes. -/
theorem stitch_bin_of_guard_fails (cfg : Config) (b : Nat) (m : ℚ) (t : Nat) (avg : List ℚ)
    (s : WidebandState) (i : Nat) (h : |freq_offset_hz cfg i| > (use_range cfg : ℚ)) :
    stitch_bin cfg b m t avg s i = s := by
  unfold stitch_bin
  rw [if_pos h]

/-- The iteration of a bin that passes the guard and the bounds check writes the
line's value to the mosaic cell `global_index`. -/
theorem stitch_bin_of_guard_passes (cfg : Config) (b : Nat) (m : ℚ) (t : Nat)
    (avg : List ℚ) (s : WidebandState) (i : Nat)
    (h : ¬ |freq_offset_hz cfg i| > (use_range cfg : ℚ))
    (h0 : 0 ≤ global_index cfg b m i) (ht : global_index cfg b m i < (t : Int)) :
    (stitch_bin cfg b m t avg s i).full_spectrum
      = s.full_spectrum.set (global_index cfg b m i).toNat (avg.getD i 0) := by
  unfold stitch_bin
  rw [if_neg h]
  dsimp only
  rw [if_pos ⟨h0, ht⟩]
  split_ifs <;> rfl

theorem global_index_zero_scale (cfg : Config) (i : Nat) : global_index cfg 0 0 i = 0 := by
  unfold global_index
  dsimp only
  rw [mul_zero]
  have h0 : truncate 0 = 0 := by
    unfold truncate
    rw [if_pos (le_refl _), Int.floor_zero]
  rw [h0]
  decide

/-- A bin that passes the guard is retained: from a one-cell mosaic holding 0,
with base index 0 and scale 0, its iteration writes the line's value 1. -/
theorem bin_retained_of_guard_passes (cfg : Config) (i : Nat)
    (h : ¬ |freq_offset_hz cfg i| > (use_range cfg : ℚ)) : bin_retained cfg i := by
  refine ⟨0, 0, 1, List.replicate (i + 1) 1,
    { WidebandState.init cfg with full_spectrum := [0] }, ?_⟩
  intro heq
  have hw := stitch_bin_of_guard_passes cfg 0 0 1 (List.replicate (i + 1) 1)
    { WidebandState.init cfg with full_spectrum := [0] } i h
    (by rw [global_index_zero_scale]) (by rw [global_index_zero_scale]; decide)
  rw [heq, global_index_zero_scale, getD_replicate_of_lt _ _ _ _ (Nat.lt_succ_self i)] at hw
  have hcell : ([0] : List ℚ) = [1] := hw
  have h01 : (0 : ℚ) = 1 := List.head_eq_of_cons_eq hcell
  exact absurd h01 (by norm_num)

theorem bin_retained_iff_guard (cfg : Config) (i : Nat) :
    bin_retained cfg i ↔ ¬ |freq_offset_hz cfg i| > (use_range cfg : ℚ) := by
  constructor
  · rintro ⟨b, m, t, avg, s, hne⟩ hfail
    exact hne (stitch_bin_of_guard_fails cfg b m t avg s i hfail)
  · exact bin_retained_of_guard_passes cfg i

theorem bin_retained_configured_iff (i : Nat) :
    bin_retained configured i ↔ 763 ≤ i ∧ i ≤ 7429 :=
  (bin_retained_iff_guard configured i).trans (use_bin_configured_iff i)

theorem bin_retained_configured_set :
    {i : Nat | i < 8192 ∧ bin_retained configured i} = ((Finset.Icc 763 7429 : Finset Nat) : Set Nat) := by
  ext i
  rw [Set.mem_setOf_eq, Finset.mem_coe, Finset.mem_Icc, bin_retained_configured_iff]
  omega

/-- C5: in the stitch loop a bin `i` is retained (its iteration is not skipped)
if and only if `|(i - FFT_SIZE/2) * (SAMPLE_RATE / FFT_SIZE)| ≤ step_size / 2`,
the step size being `STEP_SIZE_MHZ` MHz within the 64-bit range: the iteration
of a bin outside that bound changes nothing, mosaic and peak trace included,
and the iteration of a bin within it whose `global_index` passes the bounds
check writes the line's value to that mosaic cell. For `FFT_SIZE` 8192,
61.44 MS/s and a 50 MHz step the retained bins are exactly 763 .. 7429, 6667
bins, and in the step at 80 MHz each of them writes its value to the mosaic. -/
theorem use_bin_guard (cfg : Config)
    (hstep : cfg.STEP_SIZE_MHZ * 1000000 < 18446744073709551616) :
    (∀ i, bin_retained cfg i ↔
        |((i : ℚ) - (cfg.FFT_SIZE : ℚ) / 2) * ((cfg.SAMPLE_RATE : ℚ) / (cfg.FFT_SIZE : ℚ))|
          ≤ ((cfg.STEP_SIZE_MHZ : ℚ) * 1000000) / 2)
      ∧ (∀ (b : Nat) (m : ℚ) (t : Nat) (avg : List ℚ) (s : WidebandState) (i : Nat),
          ¬ |((i : ℚ) - (cfg.FFT_SIZE : ℚ) / 2) * ((cfg.SAMPLE_RATE : ℚ) / (cfg.FFT_SIZE : ℚ))|
              ≤ ((cfg.STEP_SIZE_MHZ : ℚ) * 1000000) / 2 →
          stitch_bin cfg b m t avg s i = s)
      ∧ (∀ (b : Nat) (m : ℚ) (t : Nat) (avg : List ℚ) (s : WidebandState) (i : Nat),
          |((i : ℚ) - (cfg.FFT_SIZE : ℚ) / 2) * ((cfg.SAMPLE_RATE : ℚ) / (cfg.FFT_SIZE : ℚ))|
              ≤ ((cfg.STEP_SIZE_MHZ : ℚ) * 1000000) / 2 →
          0 ≤ global_index cfg b m i → global_index cfg b m i < (t : Int) →
          (stitch_bin cfg b m t avg s i).full_spectrum
            = s.full_spectrum.set (global_index cfg b m i).toNat (avg.getD i 0))
      ∧ (∀ i, i < 8192 → (bin_retained configured i ↔ 763 ≤ i ∧ i ≤ 7429))
      ∧ Set.ncard {i : Nat | i < 8192 ∧ bin_retained configured i} = 6667
      ∧ (∀ (s : WidebandState) (avg : List ℚ), s.start_freq = 80000000 →
          s.end_freq = 110000000 → s.full_spectrum.length = 20384 → avg.length = 8192 →
          ∀ i, 763 ≤ i → i ≤ 7429 →
            ∃ g, g < 20384 ∧ stitch_target configured s 80000000 i = some g
              ∧ (stitch configured s 80000000 avg).full_spectrum[g]? = some (avg.getD i 0)) := by
  refine ⟨?_, ?_, ?_, ?_, ?_, ?_⟩
  · intro i
    exact (bin_retained_iff_guard cfg i).trans (guard_iff_formula cfg hstep i)
  · intro b m t avg s i hout
    apply stitch_bin_of_guard_fails
    by_contra hin
    exact hout ((guard_iff_formula cfg hstep i).mp hin)
  · intro b m t avg s i hin h0 ht
    exact stitch_bin_of_guard_passes cfg b m t avg s i
      ((guard_iff_formula cfg hstep i).mpr hin) h0 ht
  · intro i _
    exact bin_retained_configured_iff i
  · rw [bin_retained_configured_set, Set.ncard_coe_Finset, Nat.card_Icc]
  · intro s avg hs he hl havg i h1 h2
    have hclosed := stitch_target_80MHz_closed s hs he hl i
    rw [if_pos ⟨h1, h2⟩] at hclosed
    obtain ⟨g, hg⟩ : ∃ g, stitch_target configured s 80000000 i = some g := by
      by_cases hu : 4096 ≤ i
      · rw [if_pos hu] at hclosed
        exact ⟨_, hclosed⟩
      · rw [if_neg hu] at hclosed
        exact ⟨_, hclosed⟩
    have hlt : g < 20384 := by
      have := bin_target_lt hg
      rw [hl] at this
      exact this
    refine ⟨g, hlt, hg, ?_⟩
    exact stitch_last_write configured s 80000000 avg g i (by rw [havg]; omega) hg
      (fun j hij _ => stitch_target_80MHz_injective s hs he hl i j g hij hg)

/-- The configured 50 MHz step fits the 64-bit range: the loop retains bin 763
and skips bin 762. -/
theorem use_bin_guard_witness :
    bin_retained configured 763 ∧ ¬ bin_retained configured 762 :=
  ⟨((use_bin_guard configured (by decide)).2.2.2.1 763 (by norm_num)).mpr
      ⟨by norm_num, by norm_num⟩,
    fun h => absurd (((use_bin_guard configured (by decide)).2.2.2.1 762 (by norm_num)).mp h).1
      (by norm_num)⟩

end BladeRF
